import Mathlib

/-! gmusic: task queue, tasks, task registry and audio player.

A shallow embedding of `src/libgmusic/operation-queue.{hpp,cpp}` and of
`src/libgmusic/player.cpp`.

Threads are modelled by interleaving.  Every method of `OperationQueue` that
touches `queue` or `tokens` runs under the queue's mutex, and the worker keeps
that mutex for a whole pass of its outer loop (`workerRoutine`, lines 29-44),
so the embedding takes a method call and a worker pass as atomic steps.
Routines are state transformers on a world `σ` that lives outside the queue:
they do not call back into the queue that runs them (no routine in the
repository does) and they return normally (`TaskRoutine` is `void(void)`).
-/

namespace gmusic

/-! ## OperationQueue -/

/-- The `void *` that owns a queued routine. -/
abbrev Token := Nat

/-- `TaskPackage = std::pair<TaskRoutine, void *>`: `.1` is `first` (the
routine), `.2` is `second` (the token). -/
abbrev TaskPackage (σ : Type) := (σ → σ) × Token

/-- One entry of the worker's record: the package that was popped and whether
its routine was called (`taskPackage.first()`, line 40). -/
abbrev Dequeued (σ : Type) := TaskPackage σ × Bool

/-- Data members of `OperationQueue` (operation-queue.hpp lines 38-43).
`queue` has its front at the head; `joinable` is `workerThread.joinable()`. -/
structure OperationQueue (σ : Type) where
  queue : List (TaskPackage σ)
  tokens : Finset Token
  cancellationFlag : Bool
  joinable : Bool

namespace OperationQueue

variable {σ : Type}

/-- The constructor: empty queue, no token, flag clear, worker thread started. -/
def init : OperationQueue σ :=
  { queue := [], tokens := ∅, cancellationFlag := false, joinable := true }

/-- Body of `OperationQueue::scheduleTask` (operation-queue.cpp lines 47-55). -/
def scheduleTask (routine : σ → σ) (token : Token) (q : OperationQueue σ) :
    OperationQueue σ :=
  { q with tokens := insert token q.tokens, queue := q.queue ++ [(routine, token)] }

/-- Body of `OperationQueue::unregister` (lines 57-64). -/
def unregister (token : Token) (q : OperationQueue σ) : OperationQueue σ :=
  if token ∈ q.tokens then { q with tokens := q.tokens.erase token } else q

/-- Body of `OperationQueue::shutdown` (lines 66-73): when the thread is
joinable the flag is raised and the thread is joined, after which it is no
longer joinable. -/
def shutdown (q : OperationQueue σ) : OperationQueue σ :=
  if q.joinable then { q with cancellationFlag := true, joinable := false } else q

/-- The inner loop `while (!queue.empty())` of the worker (lines 37-43), over
the queue contents front first: the front routine is called when its token is
found in `tokens`, and the package is popped either way. -/
def drain (tokens : Finset Token) : List (TaskPackage σ) → σ → σ × List (Dequeued σ)
  | [], w => (w, [])
  | p :: rest, w =>
    let found := decide (p.2 ∈ tokens)
    let w1 := if found then p.1 w else w
    let r := drain tokens rest w1
    (r.1, (p, found) :: r.2)

/-- One pass of the outer loop of `OperationQueue::workerRoutine` (lines
29-44) once the worker holds the mutex: with nothing queued and the flag clear
it goes back to waiting; with the flag raised it returns; otherwise it drains
the queue.  The third component records what was popped. -/
def workerRoutine (q : OperationQueue σ) (w : σ) :
    OperationQueue σ × σ × List (Dequeued σ) :=
  if q.queue.isEmpty && !q.cancellationFlag then (q, w, [])
  else if q.cancellationFlag then (q, w, [])
  else
    let r := drain q.tokens q.queue w
    ({ q with queue := [] }, r.1, r.2)

end OperationQueue

/-- A call on the queue made by some thread, or a pass of the worker. -/
inductive QueueCall (σ : Type) where
  | scheduleTask (routine : σ → σ) (token : Token)
  | unregister (token : Token)
  | shutdown
  | workerPass

/-- The queue, the world its routines act on, and the record of everything
the worker has popped so far (oldest first). -/
structure QueueSystem (σ : Type) where
  opq : OperationQueue σ
  world : σ
  popped : List (Dequeued σ)

namespace QueueCall

variable {σ : Type}

/-- Whether the call is one a client thread makes to submit or cancel work:
`scheduleTask` or `unregister`. -/
def isClient : QueueCall σ → Bool
  | .scheduleTask _ _ => true
  | .unregister _ => true
  | _ => false

/-- Whether the call is a `scheduleTask` with the token `token`. -/
def schedules (token : Token) : QueueCall σ → Bool
  | .scheduleTask _ t => decide (t = token)
  | _ => false

/-- The packages submitted by the `scheduleTask` calls of a sequence, in the
order of the calls. -/
def submitted : List (QueueCall σ) → List (TaskPackage σ)
  | [] => []
  | .scheduleTask routine token :: rest => (routine, token) :: submitted rest
  | _ :: rest => submitted rest

end QueueCall

namespace QueueSystem

variable {σ : Type}

/-- A freshly constructed queue next to a world `w`. -/
def init (w : σ) : QueueSystem σ :=
  { opq := OperationQueue.init, world := w, popped := [] }

/-- Effect of one call. -/
def step (s : QueueSystem σ) : QueueCall σ → QueueSystem σ
  | .scheduleTask routine token => { s with opq := s.opq.scheduleTask routine token }
  | .unregister token => { s with opq := s.opq.unregister token }
  | .shutdown => { s with opq := s.opq.shutdown }
  | .workerPass =>
    let r := s.opq.workerRoutine s.world
    { opq := r.1, world := r.2.1, popped := s.popped ++ r.2.2 }

/-- Effect of a sequence of calls, in order. -/
def exec (s : QueueSystem σ) (calls : List (QueueCall σ)) : QueueSystem σ :=
  calls.foldl step s

end QueueSystem

/-! ## Task -/

deriving instance DecidableEq for Except

/-- What `std::future<Ret>::get()` rethrows: an exception `e` thrown by the
job, or the `std::bad_function_call` of calling an empty `job`. -/
inductive TaskError (ε : Type) where
  | thrown (e : ε)
  | badFunctionCall
  deriving DecidableEq, Repr

/-- The shared state of one promise/future pair: `none` while not ready,
otherwise the stored value or the stored exception. -/
abbrev SharedState (ε ρ : Type) := Option (Except (TaskError ε) ρ)

/-- `JobType<Ret>`: called with the cancel flag (its value when the job
starts) and the arguments; it may change its environment `E` and either
returns a `ρ` or throws an `ε`. -/
abbrev JobType (ε ρ α E : Type) := Bool → α → E → Except ε ρ × E

/-- Data members of `Task<Ret(Args...)>` (operation-queue.hpp lines 89-93).
A future in `taskQueue` is the index of its shared state; the front is the
head.  The `operationQueue` pointer is the queue of the enclosing system. -/
structure Task (ε ρ α E : Type) where
  taskQueue : List Nat
  cancelFlag : Bool
  job : Option (JobType ε ρ α E)
  completionHandler : Option (E → E)

/-- Everything a routine queued by `Task::run` can reach: the task object
(at address `self`), the shared states made by `std::make_shared` in `run`
(in allocation order), and the environment of the job and the hook. -/
structure TaskWorld (ε ρ α E : Type) where
  task : Task ε ρ α E
  self : Token
  shared : List (SharedState ε ρ)
  env : E

namespace Task

variable {ε ρ α E : Type}

/-- `Task(OperationQueue *)`: the constructor leaves the pending queue empty,
the flag clear, and job and completion handler unset. -/
def new : Task ε ρ α E :=
  { taskQueue := [], cancelFlag := false, job := none, completionHandler := none }

/-- `Task::setJob` (lines 120-125). -/
def setJob (fn : JobType ε ρ α E) (w : TaskWorld ε ρ α E) : TaskWorld ε ρ α E :=
  { w with task := { w.task with job := some fn } }

/-- `Task::setCompletionHandler` (lines 112-118). -/
def setCompletionHandler (onCompletion : E → E) (w : TaskWorld ε ρ α E) :
    TaskWorld ε ρ α E :=
  { w with task := { w.task with completionHandler := some onCompletion } }

/-- `Task::setPromise` (lines 70-87), called inside the `try` of the queued
routine: the job is called and its result is stored in the promise.  The
second component is the exception that leaves the call, if any: the one the
job threw, or `bad_function_call` when `job` is empty. -/
def setPromise (promise : Nat) (args : α) (w : TaskWorld ε ρ α E) :
    TaskWorld ε ρ α E × Option (TaskError ε) :=
  match w.task.job with
  | none => (w, some .badFunctionCall)
  | some fn =>
    match fn w.task.cancelFlag args w.env with
    | (.ok r, env1) =>
      ({ w with env := env1, shared := w.shared.set promise (some (.ok r)) }, none)
    | (.error e, env1) => ({ w with env := env1 }, some (.thrown e))

/-- The routine that `Task::run` queues (lines 138-147): `setPromise` in a
`try`, `catch (...)` storing the exception in the promise, then the
completion handler when one is set. -/
def routine (promise : Nat) (args : α) (w : TaskWorld ε ρ α E) : TaskWorld ε ρ α E :=
  let w1 :=
    match setPromise promise args w with
    | (w0, none) => w0
    | (w0, some ex) => { w0 with shared := w0.shared.set promise (some (.error ex)) }
  match w1.task.completionHandler with
  | some handler => { w1 with env := handler w1.env }
  | none => w1

/-- `Task::run` (lines 127-151): nothing without a job; otherwise a fresh
shared state, its future pushed on `taskQueue`, and the routine scheduled
with the task's own address as token. -/
def run (args : α) (q : OperationQueue (TaskWorld ε ρ α E)) (w : TaskWorld ε ρ α E) :
    OperationQueue (TaskWorld ε ρ α E) × TaskWorld ε ρ α E :=
  match w.task.job with
  | none => (q, w)
  | some _ =>
    let promise := w.shared.length
    let w1 := { w with
      shared := w.shared ++ [none]
      task := { w.task with taskQueue := w.task.taskQueue ++ [promise] } }
    (q.scheduleTask (routine promise args) w.self, w1)

/-- `Task::get` (lines 96-104).  With no pending future it returns `Ret()`.
Otherwise the front future is popped and `result.get()` is called on it: the
first component is `none` when that future is not ready (the call blocks),
else the value returned or the exception rethrown. -/
def get [Inhabited ρ] (w : TaskWorld ε ρ α E) : SharedState ε ρ × TaskWorld ε ρ α E :=
  match w.task.taskQueue with
  | [] => (some (.ok default), w)
  | result :: rest =>
    (w.shared.getD result none, { w with task := { w.task with taskQueue := rest } })

end Task

namespace QueueSystem

variable {ε ρ α E : Type}

/-- A thread calls `run(args)` on the task of a system. -/
def run (args : α) (s : QueueSystem (TaskWorld ε ρ α E)) : QueueSystem (TaskWorld ε ρ α E) :=
  let r := Task.run args s.opq s.world
  { s with opq := r.1, world := r.2 }

/-- `run(a_1)`, ..., `run(a_N)` one after the other. -/
def runAll (s : QueueSystem (TaskWorld ε ρ α E)) (as : List α) :
    QueueSystem (TaskWorld ε ρ α E) :=
  as.foldl (fun s a => s.run a) s

end QueueSystem

/-- The results of `n` successive `get()` calls, first call first, with the
world they leave. -/
def Task.getMany {ε ρ α E : Type} [Inhabited ρ] :
    Nat → TaskWorld ε ρ α E → List (SharedState ε ρ) × TaskWorld ε ρ α E
  | 0, w => ([], w)
  | n + 1, w =>
    let r := Task.get w
    let rs := Task.getMany n r.2
    (r.1 :: rs.1, rs.2)

/-- The exception a future rethrows for an exception `e` of the job. -/
def Task.stored {ε ρ : Type} : Except ε ρ → Except (TaskError ε) ρ
  | .ok v => .ok v
  | .error e => .error (.thrown e)

/-- The environment after the completion handler, when one is set, has run. -/
def Task.handled {E : Type} : Option (E → E) → E → E
  | some handler, env => handler env
  | none, env => env

/-- What the job yields when it is called on `a_1`, ..., `a_N` one after the
other, the completion handler following each call: the reference for the
results of `run(a_1)`, ..., `run(a_N)`. -/
def Task.callInOrder {ε ρ α E : Type} (fn : JobType ε ρ α E) (handler : Option (E → E))
    (flag : Bool) : List α → E → List (Except (TaskError ε) ρ)
  | [], _ => []
  | a :: as, env =>
    Task.stored (fn flag a env).1 ::
      Task.callInOrder fn handler flag as (Task.handled handler (fn flag a env).2)

/-- The environment after those calls. -/
def Task.envInOrder {ε ρ α E : Type} (fn : JobType ε ρ α E) (handler : Option (E → E))
    (flag : Bool) : List α → E → E
  | [], env => env
  | a :: as, env =>
    Task.envInOrder fn handler flag as (Task.handled handler (fn flag a env).2)

/-- The packages that `run(a_1)`, ..., `run(a_N)` queue for the task at
address `self` when the first fresh shared state has index `n`. -/
def Task.queuedBy {ε ρ α E : Type} (self : Token) :
    Nat → List α → List (TaskPackage (TaskWorld ε ρ α E))
  | _, [] => []
  | n, a :: as => (Task.routine n a, self) :: Task.queuedBy self (n + 1) as

/-! ## TaskBuilder -/

/-- `TaskBuilder::tasks`, the `std::map<std::size_t, std::unique_ptr<BaseTask>>`
(operation-queue.hpp line 186), as its entries in order of insertion: the key
and the task object it owns.  A task object is named by its rank of creation
in this builder; entries are never erased, so the name is never reused. -/
structure TaskBuilder where
  tasks : List (Nat × Nat)
  deriving DecidableEq, Repr

namespace TaskBuilder

/-- A builder with no task yet. -/
def empty : TaskBuilder := { tasks := [] }

/-- `TaskBuilder::task<Ret, Args...>()` (lines 166-182) for the signature
`sig`, with `hash_value sig` standing for
`typeid(Ret(Args...)).hash_code()`: the object returned and the builder
afterwards. -/
def task {Sig : Type} (hash_value : Sig → Nat) (sig : Sig) (b : TaskBuilder) :
    Nat × TaskBuilder :=
  match b.tasks.lookup (hash_value sig) with
  | none =>
    let rawTaskPtr := b.tasks.length
    (rawTaskPtr, { tasks := b.tasks ++ [(hash_value sig, rawTaskPtr)] })
  | some taskPtr => (taskPtr, b)

/-- The builder after `task<sig>()` has been called for each signature of
`sigs` in turn. -/
def requests {Sig : Type} (hash_value : Sig → Nat) (b : TaskBuilder) (sigs : List Sig) :
    TaskBuilder :=
  sigs.foldl (fun b sig => (task hash_value sig b).2) b

end TaskBuilder

/-! ## AudioPlayer: the cache file -/

/-- One `char` of stream data. -/
abbrev Byte := Fin 256

/-- The temporary file behind `FILE *cachefile`: its contents and its file
position indicator. -/
structure CacheFile where
  bytes : List Byte
  pos : Nat
  deriving DecidableEq, Repr

namespace CacheFile

/-- `tmpfile()`: an empty file. -/
def tmpfile : CacheFile := { bytes := [], pos := 0 }

/-- `fseek(file, 0, SEEK_END)`. -/
def fseekEnd (f : CacheFile) : CacheFile := { f with pos := f.bytes.length }

/-- `fseek(file, offset, SEEK_SET)`. -/
def fseekSet (offset : Nat) (f : CacheFile) : CacheFile := { f with pos := offset }

/-- `fwrite` of the bytes `data` at the file position: bytes already there
are overwritten, the file grows where the data passes its end (a gap before
the position reads as zeros), and the position moves past the data. -/
def fwrite (data : List Byte) (f : CacheFile) : CacheFile :=
  if data.isEmpty then f
  else
    let base := f.bytes ++ List.replicate (f.pos - f.bytes.length) 0
    { bytes := base.take f.pos ++ data ++ base.drop (f.pos + data.length)
      pos := f.pos + data.length }

/-- `fread(buffer, sizeof(char), n, file)`: up to `n` bytes from the file
position, which moves past them. -/
def fread (n : Nat) (f : CacheFile) : List Byte × CacheFile :=
  let got := (f.bytes.drop f.pos).take n
  (got, { f with pos := f.pos + got.length })

end CacheFile

/-- `PLAYER_COMMAND_*` (player.hpp lines 22-27). -/
inductive PlayerCommand where
  | proceed
  | pause
  | stop
  | seek
  deriving DecidableEq, Repr

/-- `PLAYER_STATUS_*` (player.hpp line 29). -/
inductive PlayerStatus where
  | idle
  | playing
  | paused
  deriving DecidableEq, Repr

/-- `READBUF_SIZE` (player.cpp line 136). -/
def READBUF_SIZE : Nat := 4096

/-- The calls an `AudioPlayerDelegate` can receive (player.hpp lines 31-37). -/
inductive DelegateCall where
  | updatePlaybackProgress
  | updateCacheProgress
  | playbackFinished
  | playbackStarted
  deriving DecidableEq, Repr

/-- Data members of `AudioPlayer` (player.hpp lines 82-101), the two
operation queues apart.  A `double` is the rational it denotes.  `delegate` is
`none` for a null pointer, else the calls the delegate has received so far,
oldest first.  `progressQueue` has its front at the head. -/
structure AudioPlayer where
  currentVolumeScale : ℚ
  requestedCommand : PlayerCommand
  playerStatus : PlayerStatus
  progressQueue : List ℚ
  requestedSeekSeconds : ℚ
  shouldReportProgress : Bool
  totalSize : Nat
  downloadingFinished : Bool
  hasMoreData : Bool
  downloadProgress : ℚ
  delegate : Option (List DelegateCall)
  cachefile : Option CacheFile
  deriving DecidableEq, Repr

namespace AudioPlayer

/-- The member initialisers of player.hpp. -/
def new : AudioPlayer :=
  { currentVolumeScale := 1 / 2, requestedCommand := .proceed, playerStatus := .idle,
    progressQueue := [], requestedSeekSeconds := -1, shouldReportProgress := true,
    totalSize := 0, downloadingFinished := false, hasMoreData := false,
    downloadProgress := 0, delegate := none, cachefile := none }

/-- A call `delegate->c()` guarded by `if (delegate)`. -/
def notify (c : DelegateCall) (s : AudioPlayer) : AudioPlayer :=
  { s with delegate := s.delegate.map (· ++ [c]) }

/-- The data callback of `AudioPlayer::downloadRoutine` (player.cpp lines
173-187) on a chunk `data`; `written` is what `fwrite` returns, the number of
bytes of the chunk that reached the file.  The result is the callback's return
value and the player afterwards. -/
def dataCallback (data : List Byte) (written : Nat) (s : AudioPlayer) : Nat × AudioPlayer :=
  let len := data.length
  if s.requestedCommand = .stop then
    (if len = 0 then len + 1 else 0, s)
  else
    let file := s.cachefile.map fun f => (f.fseekEnd).fwrite (data.take written)
    (len, { s with cachefile := file, hasMoreData := true })

/-- The read of `AudioPlayer::playRoutine` (lines 261-263) at `currentOffset`:
the bytes read and the player afterwards. -/
def readChunk (currentOffset : Nat) (s : AudioPlayer) : List Byte × AudioPlayer :=
  match s.cachefile with
  | none => ([], s)
  | some f =>
    let r := (f.fseekSet currentOffset).fread READBUF_SIZE
    (r.1, { s with cachefile := some r.2 })

end AudioPlayer

/-- What can happen to a player between two looks at its cache file: some
thread stores a command, the transport delivers a chunk to the data callback,
or the consumer reads at an offset. -/
inductive BufferEvent where
  | command (c : PlayerCommand)
  | chunk (data : List Byte) (written : Nat)
  | read (currentOffset : Nat)

/-- Effect of one event on the player. -/
def AudioPlayer.bufferStep (s : AudioPlayer) : BufferEvent → AudioPlayer
  | .command c => { s with requestedCommand := c }
  | .chunk data written => (s.dataCallback data written).2
  | .read currentOffset => (s.readChunk currentOffset).2

/-- Effect of a sequence of events, in order. -/
def AudioPlayer.bufferRun (s : AudioPlayer) (events : List BufferEvent) : AudioPlayer :=
  events.foldl AudioPlayer.bufferStep s

/-! ## AudioPlayer: commands and download callbacks

Arithmetic on `double` is the exact operation on rationals followed by a
rounding `rnd : ℚ → ℚ` to a representable value; the functions that compute
with doubles take `rnd` as their first argument, and `rnd = id` is exact
arithmetic.  Infinities and NaN are outside the model. -/

/-- `static_cast<off_t>` of a double: the fraction is dropped. -/
def truncate (q : ℚ) : Int := if 0 ≤ q then ⌊q⌋ else ⌈q⌉

namespace AudioPlayer

/-- The progress callback of `AudioPlayer::downloadRoutine` (player.cpp lines
162-170) for `total` expected and `received` downloaded bytes. -/
def progressCallback (rnd : ℚ → ℚ) (total received : Nat) (s : AudioPlayer) : AudioPlayer :=
  notify .updateCacheProgress
    { s with
      downloadProgress := if total = 0 then 0 else rnd (rnd received / rnd total)
      totalSize := total }

/-- The end of `AudioPlayer::downloadRoutine` once `makeRequest` has returned
(lines 189-193). -/
def downloadDone (s : AudioPlayer) : AudioPlayer := { s with downloadingFinished := true }

/-- `AudioPlayer::resetDownloaderData` (lines 111-117). -/
def resetDownloaderData (s : AudioPlayer) : AudioPlayer :=
  { s with downloadingFinished := false, hasMoreData := false, totalSize := 0,
           downloadProgress := 0 }

/-- `AudioPlayer::resetPlayerData` (lines 119-125). -/
def resetPlayerData (s : AudioPlayer) : AudioPlayer :=
  { s with progressQueue := [], playerStatus := .idle, requestedSeekSeconds := -1,
           shouldReportProgress := true }

/-- `AudioPlayer::stopRoutines` (lines 102-109).  `playEnds` and
`downloadEnds` are what the playback job and the download job do to the
player while `playQueue.wait()` and `downloadQueue.wait()` block; they are the
identity for a job that is not running. -/
def stopRoutines (playEnds downloadEnds : AudioPlayer → AudioPlayer) (s : AudioPlayer) :
    AudioPlayer :=
  let s1 := { s with requestedCommand := .stop }
  let s2 := playEnds s1
  let s3 := downloadEnds s2
  { s3 with requestedCommand := .proceed }

/-- `AudioPlayer::stop` (lines 91-100). -/
def stop (playEnds downloadEnds : AudioPlayer → AudioPlayer) (s : AudioPlayer) : AudioPlayer :=
  let s1 := stopRoutines playEnds downloadEnds s
  let s2 := resetDownloaderData s1
  let s3 := resetPlayerData s2
  { s3 with cachefile := none }

/-- `AudioPlayer::seek` (lines 127-134). -/
def seek (seconds : ℚ) (s : AudioPlayer) : AudioPlayer :=
  { s with requestedCommand := .seek, requestedSeekSeconds := seconds,
           shouldReportProgress := false, progressQueue := [] }

/-- `AudioPlayer::changeVolume` (lines 324-330); `0.001` is the double
`rnd (1 / 1000)`. -/
def changeVolume (rnd : ℚ → ℚ) (volumeScale : ℚ) (s : AudioPlayer) : AudioPlayer :=
  if |rnd (volumeScale - s.currentVolumeScale)| < rnd (1 / 1000) then s
  else { s with currentVolumeScale := volumeScale }

/-- `AudioPlayer::getLastProgressValue` (lines 332-338) with
`ThreadSafeQueue::pop` (operation-queue.hpp lines 201-207): the value
returned and the player afterwards. -/
def getLastProgressValue (s : AudioPlayer) : ℚ × AudioPlayer :=
  match s.progressQueue with
  | [] => (0, s)
  | elem :: queue => (elem, { s with progressQueue := queue })

/-- `AudioPlayer::inProgress` (lines 340-343). -/
def inProgress (s : AudioPlayer) : Bool := decide (s.playerStatus ≠ .idle)

/-- `AudioPlayer::pause` (line 345). -/
def pause (s : AudioPlayer) : AudioPlayer := { s with requestedCommand := .pause }

/-- `AudioPlayer::resume` (lines 347-351). -/
def resume (s : AudioPlayer) : AudioPlayer := { s with requestedCommand := .proceed }

end AudioPlayer

/-! ## AudioPlayer: the playback routine

`AudioPlayer::playRoutine` (player.cpp lines 196-322) runs on the playback
thread while the download callbacks and the commands run on other threads.
The routine is cut at the points where it takes or leaves a mutex or blocks:
each piece is one step of the playback thread, and the other threads act
between steps. -/

/-- The local `formatInfo` of `playRoutine` (lines 204-208). -/
structure FormatInfo where
  channels : Int
  encoding : Int
  rate : Int
  isSet : Bool
  deriving DecidableEq, Repr

/-- What one `mpg123_decode_frame` call of the loop at lines 272-298 yields:
`MPG123_NEW_FORMAT` with the values of `mpg123_getformat` and
`mpg123_encsize`, `MPG123_OK` with the decoded audio, or any other code. -/
inductive DecodeOutcome where
  | newFormat (rate channels encsize : Int)
  | ok (audioData : List Byte)
  | other
  deriving DecidableEq, Repr

/-- The libraries behind the routine, mpg123 and libao, acting on a state `X`
that holds the decoder handle and the audio device.  `feedseek x sampleOffset`
is `mpg123_feedseek(decoder, sampleOffset, SEEK_SET, &inputOffset)`: `none`
for a negative return value, else the input offset.  `decodeFrames x volume`
is the run of `mpg123_volume` and `mpg123_decode_frame` calls of the loop at
lines 272-298 up to the first call with `done = 0`.  `outputStart`,
`outputPlay` and `outputStop` are `AudioOutput::Start`, `Play` and `Stop`
(lines 22-68). -/
structure External (X : Type) where
  feedseek : X → Int → Option Nat × X
  feed : X → List Byte → X
  decodeFrames : X → ℚ → List DecodeOutcome × X
  outputStart : X → Int → Int → Int → X
  outputPlay : X → List Byte → X
  outputStop : X → X

/-- Where the playback thread stands: before the seek block (line 213),
blocked in `condvar.wait` (line 238), about to feed the chunk it read (line
266), at the condition of the inner loop (line 307), or past `exit:`. -/
inductive PlayPoint where
  | seekCheck
  | waiting
  | decoding
  | loopEnd
  | exited
  deriving DecidableEq, Repr

/-- The locals of `playRoutine` with the state of the libraries. -/
structure PlayRoutine (X : Type) where
  point : PlayPoint
  currentOffset : Nat
  read : Nat
  readBuffer : List Byte
  formatInfo : FormatInfo
  ext : X

/-- A player with its playback thread; `published` records every value the
routine has pushed on `progressQueue`, oldest first. -/
structure Playback (X : Type) where
  player : AudioPlayer
  routine : PlayRoutine X
  published : List ℚ

/-- The downloaded length as the seek block computes it (line 225):
`totalSize * downloadProgress`. -/
def AudioPlayer.downloadedLength (rnd : ℚ → ℚ) (s : AudioPlayer) : ℚ :=
  rnd (rnd s.totalSize * s.downloadProgress)

/-- The sample offset the seek block asks the decoder for (lines 218-219). -/
def AudioPlayer.seekSample {X : Type} (rnd : ℚ → ℚ) (s : AudioPlayer) (l : PlayRoutine X) :
    Int :=
  truncate (rnd (rnd l.formatInfo.rate * s.requestedSeekSeconds))

namespace AudioPlayer

variable {X : Type}

/-- The seek block of `playRoutine` (lines 213-235). -/
def seekHandling (ext : External X) (rnd : ℚ → ℚ) (s : AudioPlayer) (l : PlayRoutine X) :
    AudioPlayer × PlayRoutine X :=
  if s.requestedCommand = .seek then
    let l1 :=
      if 0 < s.totalSize then
        if l.formatInfo.isSet then
          let sampleOffset := seekSample rnd s l
          let r := ext.feedseek l.ext sampleOffset
          match r.1 with
          | some inputOffset =>
            if rnd inputOffset ≤ downloadedLength rnd s then
              { l with ext := r.2, currentOffset := inputOffset }
            else { l with ext := r.2 }
          | none => { l with ext := r.2 }
        else l
      else l
    ({ s with requestedCommand := .proceed, shouldReportProgress := true }, l1)
  else (s, l)

/-- The predicate of `condvar.wait` (lines 238-250). -/
def waitPredicate (s : AudioPlayer) : Bool :=
  if s.requestedCommand = .stop then true
  else if s.hasMoreData || s.downloadingFinished then
    if s.playerStatus = .paused && decide (s.requestedCommand ≠ .proceed) then false
    else true
  else false

/-- One pass of the `switch` at lines 277-297 for one decoded outcome. -/
def decodeOutcome (ext : External X) (st : AudioPlayer × PlayRoutine X) :
    DecodeOutcome → AudioPlayer × PlayRoutine X
  | .newFormat rate channels encsize =>
    (notify .playbackStarted { st.1 with playerStatus := .playing },
     { st.2 with
       formatInfo := { channels := channels, encoding := encsize, rate := rate, isSet := true }
       ext := ext.outputStart st.2.ext (encsize * 8) channels rate })
  | .ok audioData => (st.1, { st.2 with ext := ext.outputPlay st.2.ext audioData })
  | .other => st

end AudioPlayer

namespace Playback

variable {X : Type}

/-- The routine as `playRoutine` starts it (lines 198-211). -/
def start (s : AudioPlayer) (x : X) : Playback X :=
  { player := s
    routine := { point := .seekCheck, currentOffset := 0, read := 0, readBuffer := [],
                 formatInfo := { channels := 0, encoding := 0, rate := 0, isSet := false },
                 ext := x }
    published := [] }

/-- The code after `exit:` (lines 315-321). -/
def exit (ext : External X) (p : Playback X) : Playback X :=
  { p with
    routine := { p.routine with point := .exited, ext := ext.outputStop p.routine.ext }
    player := AudioPlayer.notify .playbackFinished { p.player with playerStatus := .idle } }

/-- From the return of `condvar.wait` to the update of `currentOffset` (lines
252-265), taken when the predicate of the wait holds. -/
def wake (ext : External X) (p : Playback X) : Playback X :=
  if p.player.requestedCommand = .stop then p.exit ext
  else if p.player.requestedCommand = .pause then
    { p with
      player := { p.player with playerStatus := .paused }
      routine := { p.routine with point := .loopEnd } }
  else
    let s1 :=
      if p.player.requestedCommand = .proceed then { p.player with playerStatus := .playing }
      else p.player
    let r := s1.readChunk p.routine.currentOffset
    { p with
      player := r.2
      routine := { p.routine with
        read := r.1.length, readBuffer := r.1
        currentOffset := p.routine.currentOffset + r.1.length
        point := .decoding } }

/-- Feeding the chunk, the decode loop and the publication of progress (lines
266-305). -/
def decode (ext : External X) (rnd : ℚ → ℚ) (p : Playback X) : Playback X :=
  let fed := ext.feed p.routine.ext p.routine.readBuffer
  let frames := ext.decodeFrames fed p.player.currentVolumeScale
  let st := frames.1.foldl (AudioPlayer.decodeOutcome ext)
    (p.player, { p.routine with ext := frames.2 })
  if st.1.shouldReportProgress && decide (0 < st.1.totalSize) && st.1.delegate.isSome then
    let playbackProgress := rnd (rnd st.2.currentOffset / rnd st.1.totalSize)
    { player := AudioPlayer.notify .updatePlaybackProgress
        { st.1 with progressQueue := st.1.progressQueue ++ [playbackProgress] }
      routine := { st.2 with point := .loopEnd }
      published := p.published ++ [playbackProgress] }
  else { p with player := st.1, routine := { st.2 with point := .loopEnd } }

/-- The condition of the inner loop and the end of the outer one (lines
307-313, then line 211 or `exit:`). -/
def loopEnd (ext : External X) (p : Playback X) : Playback X :=
  if p.routine.read = READBUF_SIZE then
    { p with routine := { p.routine with point := .seekCheck } }
  else
    let p1 := { p with player := { p.player with hasMoreData := false } }
    if p1.player.downloadingFinished then p1.exit ext
    else { p1 with routine := { p1.routine with read := 0, point := .seekCheck } }

/-- One step of the playback thread; a thread blocked in `condvar.wait` or
past `exit:` does nothing. -/
def consumerStep (ext : External X) (rnd : ℚ → ℚ) (p : Playback X) : Playback X :=
  match p.routine.point with
  | .seekCheck =>
    let r := AudioPlayer.seekHandling ext rnd p.player p.routine
    { p with player := r.1, routine := { r.2 with point := .waiting } }
  | .waiting => if p.player.waitPredicate then p.wake ext else p
  | .decoding => p.decode ext rnd
  | .loopEnd => p.loopEnd ext
  | .exited => p

end Playback

/-- What can happen to a playing player: a step of the playback thread, a
callback of the download thread, the end of the download, or a command from
another thread. -/
inductive PlaybackEvent where
  | consumer
  | data (chunk : List Byte) (written : Nat)
  | progress (total received : Nat)
  | downloadDone
  | pause
  | resume
  | seek (seconds : ℚ)
  | changeVolume (volumeScale : ℚ)
  | getLastProgressValue

namespace Playback

variable {X : Type}

/-- Effect of one event. -/
def step (ext : External X) (rnd : ℚ → ℚ) (p : Playback X) : PlaybackEvent → Playback X
  | .consumer => p.consumerStep ext rnd
  | .data chunk written => { p with player := (p.player.dataCallback chunk written).2 }
  | .progress total received => { p with player := p.player.progressCallback rnd total received }
  | .downloadDone => { p with player := p.player.downloadDone }
  | .pause => { p with player := p.player.pause }
  | .resume => { p with player := p.player.resume }
  | .seek seconds => { p with player := p.player.seek seconds }
  | .changeVolume volumeScale => { p with player := p.player.changeVolume rnd volumeScale }
  | .getLastProgressValue => { p with player := p.player.getLastProgressValue.2 }

/-- Effect of a sequence of events, in order. -/
def run (ext : External X) (rnd : ℚ → ℚ) (p : Playback X) (events : List PlaybackEvent) :
    Playback X :=
  events.foldl (step ext rnd) p

end Playback

/-- Whether an event leaves the expected total at `total` and is no seek
command: a progress callback reports `total`, and `seek` is not called. -/
def PlaybackEvent.steady (total : Nat) : PlaybackEvent → Bool
  | .seek _ => false
  | .progress t _ => decide (t = total)
  | _ => true

/-- The progress value of a cursor `offset` for the expected total `total`
(lines 301-302). -/
def Playback.progressOf (rnd : ℚ → ℚ) (total offset : Nat) : ℚ :=
  rnd (rnd offset / rnd total)

/-- A run with a fixed expected total and no seek: no seek is pending,
reporting is enabled, the total is unknown (0) or `total`, and the values
published so far are in non-decreasing order and at most the value of the
current cursor. -/
def Playback.Steady {X : Type} (rnd : ℚ → ℚ) (total : Nat) (p : Playback X) : Prop :=
  p.player.requestedCommand ≠ .seek
    ∧ p.player.shouldReportProgress = true
    ∧ (p.player.totalSize = 0 ∨ p.player.totalSize = total)
    ∧ List.Sorted (· ≤ ·) p.published
    ∧ ∀ v ∈ p.published, v ≤ Playback.progressOf rnd total p.routine.currentOffset

/-! ## AudioPlayer: the player and its two queues -/

/-- `OperationQueue::wait` (operation-queue.cpp lines 22-25): the mutex is
taken and released.  The call returns once the worker is not inside a pass and
changes nothing in the queue. -/
def OperationQueue.wait {σ : Type} (q : OperationQueue σ) : OperationQueue σ := q

/-- An `AudioPlayer` at address `self` with its members `playQueue` and
`downloadQueue`; the routines of the queues act on the player's other
members. -/
structure PlayerSystem where
  player : AudioPlayer
  playQueue : OperationQueue AudioPlayer
  downloadQueue : OperationQueue AudioPlayer
  self : Token

namespace PlayerSystem

/-- A player fresh from its constructor. -/
def new (self : Token) : PlayerSystem :=
  { player := AudioPlayer.new, playQueue := OperationQueue.init,
    downloadQueue := OperationQueue.init, self := self }

/-- `AudioPlayer::stop` called while neither worker is inside a pass, so that
both `wait()` calls return at once. -/
def stop (sys : PlayerSystem) : PlayerSystem :=
  { sys with
    player := sys.player.stop id id
    playQueue := sys.playQueue.wait
    downloadQueue := sys.downloadQueue.wait }

/-- `AudioPlayer::playTrack` (player.cpp lines 138-152), called while neither
worker is inside a pass.  `tmp` is what `tmpfile()` returns, `downloadJob` and
`playJob` are the two routines it schedules.  The second component is the
message of the exception thrown, if any. -/
def playTrack (tmp : Option CacheFile) (downloadJob playJob : AudioPlayer → AudioPlayer)
    (sys : PlayerSystem) : PlayerSystem × Option String :=
  let sys1 := sys.stop
  let s1 := { sys1.player with playerStatus := .playing, cachefile := tmp }
  match tmp with
  | none =>
    ({ sys1 with player := { s1 with playerStatus := .idle } },
      some "failed to create temp file")
  | some _ =>
    ({ sys1 with
        player := s1
        downloadQueue := sys1.downloadQueue.scheduleTask downloadJob sys1.self
        playQueue := sys1.playQueue.scheduleTask playJob sys1.self }, none)

end PlayerSystem

/-! ## HttpSession: the write callback -/

/-- `processWithCallback` (http/httpsession.cpp lines 37-47), the function
libcurl calls with a chunk of `size * nmemb` bytes: without a session it
returns 0, else it returns what the session's data callback returns.  `w` is
the state the callback acts on. -/
def processWithCallback {σ : Type} (writerData : Option (List Byte → σ → Nat × σ))
    (data : List Byte) (w : σ) : Nat × σ :=
  match writerData with
  | none => (0, w)
  | some dataCallback => dataCallback data w

/-! ## NetUtils -/

namespace NetUtils

/-- `std::isalnum` on a byte in the "C" locale: an ASCII digit or letter. -/
def isalnum (c : Byte) : Bool :=
  (48 ≤ c.val && c.val ≤ 57) || (65 ≤ c.val && c.val ≤ 90) || (97 ≤ c.val && c.val ≤ 122)

/-- `static_cast<unsigned>(c)` for a `char` holding the byte `c`: where `char`
is signed, a byte from 128 on is a negative `char` and converts to
`2^32 - 256 + c`. -/
def toUnsigned (charSigned : Bool) (c : Byte) : Nat :=
  if charSigned && decide (128 ≤ c.val) then 2 ^ 32 - 256 + c.val else c.val

/-- What `escaped << std::setw(2) << n` writes with `std::hex` and fill `'0'`:
the hexadecimal digits of `n`, padded on the left to at least two
characters. -/
def hexWidth2 (n : Nat) : List Char := List.leftpad 2 '0' (Nat.toDigits 16 n)

/-- `NetUtils::urlEncode` (utilities.cpp lines 262-277) on the bytes of `str`;
`charSigned` tells whether `char` is a signed type on the platform. -/
def urlEncode (charSigned : Bool) (str : List Byte) : List Char :=
  str.flatMap fun c =>
    if isalnum c || Char.ofNat c.val = '-' || Char.ofNat c.val = '_'
        || Char.ofNat c.val = '.' || Char.ofNat c.val = '~' then
      [Char.ofNat c.val]
    else '%' :: hexWidth2 (toUnsigned charSigned c)

end NetUtils

/-! ## RWLockHandle -/

/-- Data members of `RWLockHandle` (operation-queue.hpp lines 244-245). -/
structure RWLockHandle where
  activeReaders : Int
  activeWriters : Int
  deriving DecidableEq, Repr

namespace RWLockHandle

/-- The constructor (operation-queue.cpp line 75). -/
def new : RWLockHandle := { activeReaders := 0, activeWriters := 0 }

/-- `RWLockHandle::readLock` (lines 80-86): `none` while the call has to wait. -/
def readLock (h : RWLockHandle) : Option RWLockHandle :=
  if h.activeWriters = 0 then some { h with activeReaders := h.activeReaders + 1 } else none

/-- `RWLockHandle::readUnlock` (lines 88-94). -/
def readUnlock (h : RWLockHandle) : RWLockHandle :=
  { h with activeReaders := h.activeReaders - 1 }

/-- `RWLockHandle::writeLock` (lines 96-103): `none` while the call has to
wait. -/
def writeLock (h : RWLockHandle) : Option RWLockHandle :=
  if h.activeReaders = 0 ∧ h.activeWriters = 0 then
    some { h with activeWriters := h.activeWriters + 1 }
  else none

/-- `RWLockHandle::writeUnlock` (lines 105-112). -/
def writeUnlock (h : RWLockHandle) : RWLockHandle :=
  { h with activeWriters := h.activeWriters - 1 }

end RWLockHandle

/-- A call on the lock that has returned. -/
inductive RWCall where
  | readLock
  | readUnlock
  | writeLock
  | writeUnlock
  deriving DecidableEq, Repr

namespace RWLockHandle

/-- The lock after a call has returned; `none` when the call cannot return in
this state (a lock call that waits) or does not match a lock that is held (an
unlock with no reader, or no writer, inside). -/
def step (h : RWLockHandle) : RWCall → Option RWLockHandle
  | .readLock => h.readLock
  | .writeLock => h.writeLock
  | .readUnlock => if 0 < h.activeReaders then some h.readUnlock else none
  | .writeUnlock => if 0 < h.activeWriters then some h.writeUnlock else none

/-- The lock after a sequence of calls, each returning before the next. -/
def run (h : RWLockHandle) : List RWCall → Option RWLockHandle
  | [] => some h
  | c :: calls =>
    match h.step c with
    | none => none
    | some h1 => run h1 calls

end RWLockHandle

/-! ## HttpError -/

/-- `enum class HttpErrorCode` (http/httperror.hpp lines 9-30). -/
inductive HttpErrorCode where
  | OK
  | CONNECTION_FAILURE
  | EMPTY_RESPONSE
  | HOST_RESOLUTION_FAILURE
  | INTERNAL_ERROR
  | INVALID_URL_FORMAT
  | NETWORK_RECEIVE_ERROR
  | NETWORK_SEND_FAILURE
  | OPERATION_TIMEDOUT
  | PROXY_RESOLUTION_FAILURE
  | SSL_CONNECT_ERROR
  | SSL_LOCAL_CERTIFICATE_ERROR
  | SSL_REMOTE_CERTIFICATE_ERROR
  | SSL_CACERT_ERROR
  | GENERIC_SSL_ERROR
  | UNSUPPORTED_PROTOCOL
  | UNAUTHORIZED
  | BAD_REQUEST
  | NOT_FOUND
  | UNKNOWN_ERROR
  deriving DecidableEq, Repr

/-- The values of the `CURLE_*` constants of `<curl/curl.h>` that
`getErrorCodeForCurlError` uses as case labels. -/
structure CurlCodes where
  CURLE_OK : Nat
  CURLE_UNSUPPORTED_PROTOCOL : Nat
  CURLE_URL_MALFORMAT : Nat
  CURLE_COULDNT_RESOLVE_PROXY : Nat
  CURLE_COULDNT_RESOLVE_HOST : Nat
  CURLE_COULDNT_CONNECT : Nat
  CURLE_OPERATION_TIMEDOUT : Nat
  CURLE_SSL_CONNECT_ERROR : Nat
  CURLE_PEER_FAILED_VERIFICATION : Nat
  CURLE_GOT_NOTHING : Nat
  CURLE_SSL_ENGINE_NOTFOUND : Nat
  CURLE_SSL_ENGINE_SETFAILED : Nat
  CURLE_SEND_ERROR : Nat
  CURLE_RECV_ERROR : Nat
  CURLE_SSL_CERTPROBLEM : Nat
  CURLE_SSL_CIPHER : Nat
  CURLE_SSL_CACERT : Nat
  CURLE_USE_SSL_FAILED : Nat
  CURLE_SSL_ENGINE_INITFAILED : Nat
  CURLE_SSL_CACERT_BADFILE : Nat
  CURLE_SSL_SHUTDOWN_FAILED : Nat
  CURLE_SSL_CRL_BADFILE : Nat
  CURLE_SSL_ISSUER_ERROR : Nat
  CURLE_TOO_MANY_REDIRECTS : Nat
  deriving DecidableEq, Repr

/-- The case labels of the `switch` in `getErrorCodeForCurlError`, in the
order of the source; a `switch` compiles only when they are pairwise
distinct. -/
def CurlCodes.labels (k : CurlCodes) : List Nat :=
  [k.CURLE_OK, k.CURLE_UNSUPPORTED_PROTOCOL, k.CURLE_URL_MALFORMAT,
   k.CURLE_COULDNT_RESOLVE_PROXY, k.CURLE_COULDNT_RESOLVE_HOST, k.CURLE_COULDNT_CONNECT,
   k.CURLE_OPERATION_TIMEDOUT, k.CURLE_SSL_CONNECT_ERROR, k.CURLE_PEER_FAILED_VERIFICATION,
   k.CURLE_GOT_NOTHING, k.CURLE_SSL_ENGINE_NOTFOUND, k.CURLE_SSL_ENGINE_SETFAILED,
   k.CURLE_SEND_ERROR, k.CURLE_RECV_ERROR, k.CURLE_SSL_CERTPROBLEM, k.CURLE_SSL_CIPHER,
   k.CURLE_SSL_CACERT, k.CURLE_USE_SSL_FAILED, k.CURLE_SSL_ENGINE_INITFAILED,
   k.CURLE_SSL_CACERT_BADFILE, k.CURLE_SSL_SHUTDOWN_FAILED, k.CURLE_SSL_CRL_BADFILE,
   k.CURLE_SSL_ISSUER_ERROR, k.CURLE_TOO_MANY_REDIRECTS]

/-- `HttpError::getErrorCodeForCurlError` (http/httperror.cpp lines 20-74). -/
def HttpError.getErrorCodeForCurlError (k : CurlCodes) (curl_code : Nat) : HttpErrorCode :=
  if curl_code = k.CURLE_OK then .OK
  else if curl_code = k.CURLE_UNSUPPORTED_PROTOCOL then .UNSUPPORTED_PROTOCOL
  else if curl_code = k.CURLE_URL_MALFORMAT then .INVALID_URL_FORMAT
  else if curl_code = k.CURLE_COULDNT_RESOLVE_PROXY then .PROXY_RESOLUTION_FAILURE
  else if curl_code = k.CURLE_COULDNT_RESOLVE_HOST then .HOST_RESOLUTION_FAILURE
  else if curl_code = k.CURLE_COULDNT_CONNECT then .CONNECTION_FAILURE
  else if curl_code = k.CURLE_OPERATION_TIMEDOUT then .OPERATION_TIMEDOUT
  else if curl_code = k.CURLE_SSL_CONNECT_ERROR then .SSL_CONNECT_ERROR
  else if curl_code = k.CURLE_PEER_FAILED_VERIFICATION then .SSL_REMOTE_CERTIFICATE_ERROR
  else if curl_code = k.CURLE_GOT_NOTHING then .EMPTY_RESPONSE
  else if curl_code = k.CURLE_SSL_ENGINE_NOTFOUND then .GENERIC_SSL_ERROR
  else if curl_code = k.CURLE_SSL_ENGINE_SETFAILED then .GENERIC_SSL_ERROR
  else if curl_code = k.CURLE_SEND_ERROR then .NETWORK_SEND_FAILURE
  else if curl_code = k.CURLE_RECV_ERROR then .NETWORK_RECEIVE_ERROR
  else if curl_code = k.CURLE_SSL_CERTPROBLEM then .SSL_LOCAL_CERTIFICATE_ERROR
  else if curl_code = k.CURLE_SSL_CIPHER then .GENERIC_SSL_ERROR
  else if curl_code = k.CURLE_SSL_CACERT then .SSL_CACERT_ERROR
  else if curl_code = k.CURLE_USE_SSL_FAILED then .GENERIC_SSL_ERROR
  else if curl_code = k.CURLE_SSL_ENGINE_INITFAILED then .GENERIC_SSL_ERROR
  else if curl_code = k.CURLE_SSL_CACERT_BADFILE then .SSL_CACERT_ERROR
  else if curl_code = k.CURLE_SSL_SHUTDOWN_FAILED then .GENERIC_SSL_ERROR
  else if curl_code = k.CURLE_SSL_CRL_BADFILE then .SSL_CACERT_ERROR
  else if curl_code = k.CURLE_SSL_ISSUER_ERROR then .SSL_CACERT_ERROR
  else if curl_code = k.CURLE_TOO_MANY_REDIRECTS then .OK
  else .INTERNAL_ERROR

/-! ## Concrete jobs, tasks and players -/

/-- A job on naturals: halves even numbers, throws on odd ones, counts calls. -/
def halve : JobType String Nat Nat Nat := fun _ a env =>
  (if a % 2 = 0 then .ok (a / 2) else .error "odd", env + 1)

/-- A task at address 7 with `halve` as job and a hook adding 100. -/
def halveWorld : TaskWorld String Nat Nat Nat :=
  { task := { taskQueue := [], cancelFlag := false, job := some halve,
              completionHandler := some (· + 100) }
    self := 7, shared := [], env := 0 }

/-- A player whose cache file already holds three bytes. -/
def cachedPlayer : AudioPlayer :=
  { AudioPlayer.new with cachefile := some { bytes := [1, 2, 3], pos := 0 } }

/-- The player of `cachedPlayer` after a `Stop` command. -/
def stoppedPlayer : AudioPlayer := { cachedPlayer with requestedCommand := .stop }

/-- A stand-in for the libraries: the state tells whether the format has been
announced; 100 samples take one input byte. -/
def toyExternal : External Bool :=
  { feedseek := fun x sampleOffset =>
      (if sampleOffset < 0 then none else some (sampleOffset.toNat / 100), x)
    feed := fun x _ => x
    decodeFrames := fun x _ =>
      if x then ([.ok [0], .other], x) else ([.newFormat 44100 2 2], true)
    outputStart := fun x _ _ _ => x
    outputPlay := fun x _ => x
    outputStop := fun x => x }

/-- The player of `cachedPlayer` once the transport has reported 500 bytes
received of 1000. -/
def halfDownloaded : AudioPlayer := cachedPlayer.progressCallback id 1000 500

/-- A routine at the seek block that knows the format, 44100 samples a second. -/
def formatKnown : PlayRoutine Bool :=
  { (Playback.start cachedPlayer true).routine with
    formatInfo := { channels := 2, encoding := 2, rate := 44100, isSet := true } }

/-- A chunk of 250 bytes. -/
def chunk250 : List Byte := List.replicate 250 7

/-- The events of a download of 1000 bytes in four chunks of 250, the
playback thread taking each chunk through its four steps before the next
arrives, then the end of the download and a last turn of the playback
thread. -/
def fourChunks : List PlaybackEvent :=
  [.progress 1000 0,
   .data chunk250 250, .progress 1000 250, .consumer, .consumer, .consumer, .consumer,
   .data chunk250 250, .progress 1000 500, .consumer, .consumer, .consumer, .consumer,
   .data chunk250 250, .progress 1000 750, .consumer, .consumer, .consumer, .consumer,
   .data chunk250 250, .progress 1000 1000, .consumer, .consumer, .consumer, .consumer,
   .downloadDone, .consumer, .consumer, .consumer, .consumer]

/-- The player as `playTrack` leaves it, with a delegate, and its routine. -/
def freshPlayback : Playback Bool :=
  Playback.start
    { AudioPlayer.new with
      playerStatus := .playing, delegate := some [], cachefile := some CacheFile.tmpfile }
    false

/-- A player with a delegate after `playTrack` at once followed by `stop`,
before either worker has woken up; the two jobs stand for the download and
the playback routine by the delegate call they make. -/
def stoppedAtOnce : PlayerSystem :=
  (({ PlayerSystem.new 7 with player := { AudioPlayer.new with delegate := some [] } }
      : PlayerSystem).playTrack (some CacheFile.tmpfile)
    (AudioPlayer.notify .updateCacheProgress) (AudioPlayer.notify .playbackStarted)).1.stop

/-- The values of the constants in a `<curl/curl.h>` that keeps
`CURLE_PEER_FAILED_VERIFICATION` (51) apart from `CURLE_SSL_CACERT` (60). -/
def curlValues : CurlCodes :=
  { CURLE_OK := 0, CURLE_UNSUPPORTED_PROTOCOL := 1, CURLE_URL_MALFORMAT := 3,
    CURLE_COULDNT_RESOLVE_PROXY := 5, CURLE_COULDNT_RESOLVE_HOST := 6,
    CURLE_COULDNT_CONNECT := 7, CURLE_OPERATION_TIMEDOUT := 28,
    CURLE_SSL_CONNECT_ERROR := 35, CURLE_PEER_FAILED_VERIFICATION := 51,
    CURLE_GOT_NOTHING := 52, CURLE_SSL_ENGINE_NOTFOUND := 53,
    CURLE_SSL_ENGINE_SETFAILED := 54, CURLE_SEND_ERROR := 55, CURLE_RECV_ERROR := 56,
    CURLE_SSL_CERTPROBLEM := 58, CURLE_SSL_CIPHER := 59, CURLE_SSL_CACERT := 60,
    CURLE_USE_SSL_FAILED := 64, CURLE_SSL_ENGINE_INITFAILED := 66,
    CURLE_SSL_CACERT_BADFILE := 77, CURLE_SSL_SHUTDOWN_FAILED := 80,
    CURLE_SSL_CRL_BADFILE := 82, CURLE_SSL_ISSUER_ERROR := 83,
    CURLE_TOO_MANY_REDIRECTS := 47 }

/-- A routine that wakes up with `Pause` requested at the head of the outer
loop (`read = 0`) once the download has finished. -/
def pausedAtLoopHead : Playback Bool :=
  { player := { AudioPlayer.new with
      requestedCommand := .pause, playerStatus := .playing, totalSize := 1000,
      downloadingFinished := true, hasMoreData := true, delegate := some [],
      cachefile := some { bytes := chunk250, pos := 0 } }
    routine := { (Playback.start AudioPlayer.new true).routine with point := .waiting }
    published := [] }

/-- A routine about to decode a chunk of 250 bytes of 1000 with reporting
enabled and no delegate set. -/
def decodingWithoutDelegate : Playback Bool :=
  { player := { AudioPlayer.new with
      playerStatus := .playing, totalSize := 1000, hasMoreData := true,
      cachefile := some { bytes := chunk250, pos := 250 } }
    routine := { (Playback.start AudioPlayer.new true).routine with
      point := .decoding, currentOffset := 250, read := 250, readBuffer := chunk250 }
    published := [] }

/-- A task at address 7 fresh from its constructor: no job, no hook. -/
def idleWorld : TaskWorld String Nat Nat Nat :=
  { task := Task.new, self := 7, shared := [], env := 0 }

/-! ## Lemmas on the worker -/

namespace OperationQueue

variable {σ : Type}

theorem drain_popped (tokens : Finset Token) (ps : List (TaskPackage σ)) (w : σ) :
    (drain tokens ps w).2 = ps.map (fun p => (p, decide (p.2 ∈ tokens))) := by
  induction ps generalizing w with
  | nil => rfl
  | cons p rest ih => simp [drain, ih]

theorem drain_world (tokens : Finset Token) (ps : List (TaskPackage σ)) (w : σ) :
    (drain tokens ps w).1
      = (ps.filter (fun p => decide (p.2 ∈ tokens))).foldl (fun w p => p.1 w) w := by
  induction ps generalizing w with
  | nil => rfl
  | cons p rest ih =>
    by_cases h : p.2 ∈ tokens <;> simp [drain, ih, h]

theorem workerRoutine_tokens (q : OperationQueue σ) (w : σ) :
    (q.workerRoutine w).1.tokens = q.tokens := by
  unfold workerRoutine
  split
  · rfl
  · split <;> rfl

theorem workerRoutine_flags (q : OperationQueue σ) (w : σ) :
    (q.workerRoutine w).1.cancellationFlag = q.cancellationFlag
      ∧ (q.workerRoutine w).1.joinable = q.joinable := by
  unfold workerRoutine
  split
  · exact ⟨rfl, rfl⟩
  · split <;> exact ⟨rfl, rfl⟩

theorem workerRoutine_live (q : OperationQueue σ) (w : σ) (hflag : q.cancellationFlag = false) :
    q.workerRoutine w
      = ({ q with queue := [] }, (drain q.tokens q.queue w).1, (drain q.tokens q.queue w).2) := by
  unfold workerRoutine
  cases hq : q.queue with
  | nil =>
    cases q
    simp_all [drain]
  | cons p rest => simp [hflag]

theorem workerRoutine_cancelled (q : OperationQueue σ) (w : σ)
    (hflag : q.cancellationFlag = true) : q.workerRoutine w = (q, w, []) := by
  simp [workerRoutine, hflag]

theorem workerRoutine_popped (q : OperationQueue σ) (w : σ) :
    ∀ d ∈ (q.workerRoutine w).2.2, d.2 = decide (d.1.2 ∈ q.tokens) := by
  intro d hd
  cases hflag : q.cancellationFlag with
  | true => simp [workerRoutine_cancelled q w hflag] at hd
  | false =>
    rw [workerRoutine_live q w hflag, drain_popped] at hd
    simp only [List.mem_map] at hd
    obtain ⟨p, -, rfl⟩ := hd
    rfl

theorem not_mem_unregister (token : Token) (q : OperationQueue σ) :
    token ∉ (q.unregister token).tokens := by
  unfold unregister
  split
  · simp
  · assumption

end OperationQueue

/-! ## Lemmas on sequences of calls -/

namespace QueueSystem

variable {σ : Type}

theorem exec_cons (s : QueueSystem σ) (c : QueueCall σ) (calls : List (QueueCall σ)) :
    s.exec (c :: calls) = (s.step c).exec calls := rfl

theorem exec_client (calls : List (QueueCall σ)) (s : QueueSystem σ)
    (hclient : ∀ c ∈ calls, c.isClient = true) :
    (s.exec calls).opq.queue = s.opq.queue ++ QueueCall.submitted calls
      ∧ (s.exec calls).opq.cancellationFlag = s.opq.cancellationFlag
      ∧ (s.exec calls).world = s.world
      ∧ (s.exec calls).popped = s.popped := by
  induction calls generalizing s with
  | nil => simp [exec, QueueCall.submitted]
  | cons c calls ih =>
    have hrest : ∀ c ∈ calls, c.isClient = true := fun c hc =>
      hclient c (List.mem_cons_of_mem _ hc)
    have hc := hclient c (List.mem_cons_self _ _)
    rw [exec_cons]
    obtain ⟨h1, h2, h3, h4⟩ := ih (s.step c) hrest
    rw [h1, h2, h3, h4]
    cases c with
    | scheduleTask routine token =>
      simp [step, OperationQueue.scheduleTask, QueueCall.submitted]
    | unregister token =>
      simp only [step, OperationQueue.unregister, QueueCall.submitted]
      split <;> simp
    | shutdown => simp [QueueCall.isClient] at hc
    | workerPass => simp [QueueCall.isClient] at hc

theorem exec_gated (token : Token) (calls : List (QueueCall σ)) (s : QueueSystem σ)
    (hdead : token ∉ s.opq.tokens) (hno : ∀ c ∈ calls, c.schedules token = false) :
    ∃ fresh, (s.exec calls).popped = s.popped ++ fresh
      ∧ ∀ d ∈ fresh, d.1.2 = token → d.2 = false := by
  induction calls generalizing s with
  | nil => exact ⟨[], by simp [exec], by simp⟩
  | cons c calls ih =>
    have hrest : ∀ c ∈ calls, c.schedules token = false := fun c hc =>
      hno c (List.mem_cons_of_mem _ hc)
    have hc := hno c (List.mem_cons_self _ _)
    rw [exec_cons]
    cases c with
    | scheduleTask routine t =>
      have ht : t ≠ token := by simpa [QueueCall.schedules] using hc
      have hdead1 : token ∉ (s.step (.scheduleTask routine t)).opq.tokens := by
        simp only [step, OperationQueue.scheduleTask, Finset.mem_insert, not_or]
        exact ⟨fun h => ht h.symm, hdead⟩
      exact ih _ hdead1 hrest
    | unregister t =>
      have hdead1 : token ∉ (s.step (.unregister t)).opq.tokens := by
        simp only [step, OperationQueue.unregister]
        split
        · simp [hdead]
        · exact hdead
      exact ih _ hdead1 hrest
    | shutdown =>
      have hdead1 : token ∉ (s.step .shutdown).opq.tokens := by
        simp only [step, OperationQueue.shutdown]
        split <;> exact hdead
      exact ih _ hdead1 hrest
    | workerPass =>
      have hdead1 : token ∉ (s.step .workerPass).opq.tokens := by
        simp only [step, OperationQueue.workerRoutine_tokens]
        exact hdead
      obtain ⟨fresh, hp, hf⟩ := ih _ hdead1 hrest
      refine ⟨(s.opq.workerRoutine s.world).2.2 ++ fresh, ?_, ?_⟩
      · rw [hp]
        simp [step]
      · intro d hd htok
        rcases List.mem_append.mp hd with h | h
        · rw [OperationQueue.workerRoutine_popped s.opq s.world d h, htok]
          simpa using hdead
        · exact hf d h htok

theorem step_shutdown_joined (s : QueueSystem σ) (hjoin : s.opq.joinable = false) :
    s.step .shutdown = s := by
  simp [step, OperationQueue.shutdown, hjoin]

/-- Once the flag is up and the thread has been joined. -/
theorem exec_down (calls : List (QueueCall σ)) (s : QueueSystem σ)
    (hflag : s.opq.cancellationFlag = true) (hjoin : s.opq.joinable = false) :
    (s.exec calls).opq.cancellationFlag = true ∧ (s.exec calls).opq.joinable = false
      ∧ (s.exec calls).popped = s.popped ∧ (s.exec calls).world = s.world := by
  induction calls generalizing s with
  | nil => exact ⟨hflag, hjoin, rfl, rfl⟩
  | cons c calls ih =>
    rw [exec_cons]
    cases c with
    | scheduleTask routine t => exact ih _ hflag hjoin
    | unregister t =>
      have h : (s.step (.unregister t)).opq.cancellationFlag = true
          ∧ (s.step (.unregister t)).opq.joinable = false := by
        simp only [step, OperationQueue.unregister]
        split <;> exact ⟨hflag, hjoin⟩
      exact ih _ h.1 h.2
    | shutdown =>
      have h : s.step .shutdown = s := by
        simp [step, OperationQueue.shutdown, hjoin]
      rw [h]
      exact ih _ hflag hjoin
    | workerPass =>
      have h : s.step .workerPass = s := by
        simp [step, OperationQueue.workerRoutine_cancelled s.opq s.world hflag]
      rw [h]
      exact ih _ hflag hjoin

/-- From construction on, a thread that is no longer joinable has seen the
flag raised. -/
theorem exec_init_joined (w : σ) (calls : List (QueueCall σ)) :
    ((init w).exec calls).opq.joinable = false →
      ((init w).exec calls).opq.cancellationFlag = true := by
  suffices h : ∀ (calls : List (QueueCall σ)) (s : QueueSystem σ),
      (s.opq.joinable = false → s.opq.cancellationFlag = true) →
      ((s.exec calls).opq.joinable = false → (s.exec calls).opq.cancellationFlag = true) from
    h calls (init w) (by simp [init, OperationQueue.init])
  intro calls
  induction calls with
  | nil => intro s h; exact h
  | cons c calls ih =>
    intro s h
    rw [exec_cons]
    apply ih
    cases c with
    | scheduleTask routine t => exact h
    | unregister t =>
      simp only [step, OperationQueue.unregister]
      split <;> exact h
    | shutdown =>
      simp only [step, OperationQueue.shutdown]
      split
      · intro _; rfl
      · exact h
    | workerPass =>
      simp only [step]
      rw [(OperationQueue.workerRoutine_flags s.opq s.world).1,
        (OperationQueue.workerRoutine_flags s.opq s.world).2]
      exact h

end QueueSystem

/-! ## Lemmas on the task routine -/

namespace Task

variable {ε ρ α E : Type}

theorem routine_eq (promise : Nat) (args : α) (w : TaskWorld ε ρ α E) (fn : JobType ε ρ α E)
    (hjob : w.task.job = some fn) :
    routine promise args w =
      { w with
        shared := w.shared.set promise (some (stored (fn w.task.cancelFlag args w.env).1))
        env := handled w.task.completionHandler (fn w.task.cancelFlag args w.env).2 } := by
  unfold routine setPromise
  rw [hjob]
  rcases hfn : fn w.task.cancelFlag args w.env with ⟨r, env1⟩
  cases r <;> cases hh : w.task.completionHandler <;> simp [hfn, stored, handled, hh]

theorem callInOrder_length (fn : JobType ε ρ α E) (handler : Option (E → E)) (flag : Bool)
    (as : List α) (env : E) : (callInOrder fn handler flag as env).length = as.length := by
  induction as generalizing env with
  | nil => rfl
  | cons a as ih => simp [callInOrder, ih]

theorem set_take_drop {β : Type} (l : List β) (n k : Nat) (x : β) (cells : List β)
    (hn : n < l.length) :
    (l.set n x).take (n + 1) ++ cells ++ (l.set n x).drop (n + 1 + k)
      = l.take n ++ (x :: cells) ++ l.drop (n + (k + 1)) := by
  have h1 : (l.set n x).take (n + 1) = l.take n ++ [x] := by
    rw [List.set_eq_take_append_cons_drop, if_pos hn, List.take_append_eq_append_take]
    have hl : (List.take n l).length = n := by simp; omega
    simp [hl]
  have h2 : (l.set n x).drop (n + 1 + k) = l.drop (n + (k + 1)) := by
    rw [List.drop_set_of_lt x l (by omega : n < n + 1 + k)]
    congr 1
    omega
  rw [h1, h2]
  simp

theorem drain_routines (tokens : Finset Token) (fn : JobType ε ρ α E) (as : List α) (n : Nat)
    (w : TaskWorld ε ρ α E) (hjob : w.task.job = some fn) (htok : w.self ∈ tokens)
    (hlen : n + as.length ≤ w.shared.length) :
    (OperationQueue.drain tokens (queuedBy w.self n as) w).1
      = { w with
          shared := w.shared.take n
            ++ (callInOrder fn w.task.completionHandler w.task.cancelFlag as w.env).map some
            ++ w.shared.drop (n + as.length)
          env := envInOrder fn w.task.completionHandler w.task.cancelFlag as w.env } := by
  induction as generalizing n w with
  | nil => simp [queuedBy, OperationQueue.drain, callInOrder, envInOrder]
  | cons a as ih =>
    have hn : n < w.shared.length := by simp at hlen; omega
    simp only [queuedBy, OperationQueue.drain, htok, decide_True, if_true]
    rw [routine_eq n a w fn hjob]
    have := ih (n + 1)
      { w with
        shared := w.shared.set n (some (stored (fn w.task.cancelFlag a w.env).1))
        env := handled w.task.completionHandler (fn w.task.cancelFlag a w.env).2 }
      hjob htok (by simp at hlen ⊢; omega)
    simp only at this
    rw [this]
    simp only [callInOrder, envInOrder, List.map_cons, List.length_cons]
    rw [set_take_drop _ _ _ _ _ hn]

theorem getMany_range [Inhabited ρ] (k n : Nat) (w : TaskWorld ε ρ α E) (rest : List Nat)
    (htq : w.task.taskQueue = List.range' n k ++ rest) :
    (getMany k w).1 = (List.range' n k).map (fun i => w.shared.getD i none) := by
  induction k generalizing n w with
  | zero => simp [getMany]
  | succ k ih =>
    have hq : w.task.taskQueue = n :: (List.range' (n + 1) k ++ rest) := by
      rw [htq, List.range'_succ]; rfl
    have hget : get w = (w.shared.getD n none,
        { w with task := { w.task with taskQueue := List.range' (n + 1) k ++ rest } }) := by
      simp [get, hq]
    simp only [getMany, hget, List.range'_succ, List.map_cons]
    rw [ih (n + 1) _ rfl]

theorem range_getD {β : Type} (d : β) (pre cells post : List β) :
    (List.range' pre.length cells.length).map (fun i => (pre ++ cells ++ post).getD i d)
      = cells := by
  induction cells generalizing pre with
  | nil => simp
  | cons c cs ih =>
    have := ih (pre ++ [c])
    simp only [List.length_append, List.length_cons, List.length_nil, List.append_assoc,
      List.cons_append, List.nil_append] at this
    simp only [List.length_cons, List.range'_succ, List.map_cons, List.append_assoc,
      List.cons_append]
    rw [this]
    have hc : (pre ++ c :: (cs ++ post))[pre.length]? = some c := by
      rw [List.getElem?_append_right (Nat.le_refl _)]
      simp
    simp [List.getD_eq_getElem?_getD, hc]

theorem queuedBy_length (self : Token) (n : Nat) (as : List α) :
    (queuedBy self n as : List (TaskPackage (TaskWorld ε ρ α E))).length = as.length := by
  induction as generalizing n with
  | nil => rfl
  | cons a as ih => simp [queuedBy, ih]

end Task

namespace QueueSystem

variable {ε ρ α E : Type}

theorem run_eq (a : α) (s : QueueSystem (TaskWorld ε ρ α E)) (fn : JobType ε ρ α E)
    (hjob : s.world.task.job = some fn) :
    s.run a =
      { opq := s.opq.scheduleTask (Task.routine s.world.shared.length a) s.world.self
        world := { s.world with
          shared := s.world.shared ++ [none]
          task := { s.world.task with
            taskQueue := s.world.task.taskQueue ++ [s.world.shared.length] } }
        popped := s.popped } := by
  simp [run, Task.run, hjob]

theorem runAll_world (as : List α) (s : QueueSystem (TaskWorld ε ρ α E)) (fn : JobType ε ρ α E)
    (hjob : s.world.task.job = some fn) :
    (s.runAll as).world =
      { s.world with
        shared := s.world.shared ++ List.replicate as.length none
        task := { s.world.task with
          taskQueue := s.world.task.taskQueue ++ List.range' s.world.shared.length as.length } }
      := by
  induction as generalizing s with
  | nil => simp [runAll]
  | cons a as ih =>
    have hstep : (s.runAll (a :: as)) = (s.run a).runAll as := rfl
    rw [hstep, ih (s.run a) (by rw [run_eq a s fn hjob]; exact hjob), run_eq a s fn hjob]
    simp [List.replicate_succ, List.range'_succ]

theorem runAll_opq (as : List α) (s : QueueSystem (TaskWorld ε ρ α E)) (fn : JobType ε ρ α E)
    (hjob : s.world.task.job = some fn) :
    (s.runAll as).opq =
      { s.opq with
        queue := s.opq.queue ++ Task.queuedBy s.world.self s.world.shared.length as
        tokens := if as.isEmpty then s.opq.tokens else insert s.world.self s.opq.tokens } := by
  induction as generalizing s with
  | nil => simp [runAll, Task.queuedBy]
  | cons a as ih =>
    have hstep : (s.runAll (a :: as)) = (s.run a).runAll as := rfl
    rw [hstep, ih (s.run a) (by rw [run_eq a s fn hjob]; exact hjob), run_eq a s fn hjob]
    cases as <;> simp [OperationQueue.scheduleTask, Task.queuedBy]

theorem runAll_popped (as : List α) (s : QueueSystem (TaskWorld ε ρ α E)) :
    (s.runAll as).popped = s.popped := by
  induction as generalizing s with
  | nil => rfl
  | cons a as ih =>
    have hstep : (s.runAll (a :: as)) = (s.run a).runAll as := rfl
    rw [hstep, ih]
    rfl

end QueueSystem

/-! ## Lemmas on the task builder -/

namespace TaskBuilder

variable {Sig : Type}

theorem lookup_none_iff (l : List (Nat × Nat)) (k : Nat) :
    l.lookup k = none ↔ k ∉ l.map Prod.fst := by
  rw [List.lookup_eq_none_iff]
  simp only [List.mem_map, not_exists, not_and]
  constructor
  · intro h p hp hk
    have := h p hp
    simp [hk] at this
  · intro h p hp
    have := h p hp
    simp only [bne_iff_ne, ne_eq]
    exact fun hk => this hk.symm

theorem requests_cons (hash_value : Sig → Nat) (b : TaskBuilder) (sig : Sig) (sigs : List Sig) :
    b.requests hash_value (sig :: sigs) = (task hash_value sig b).2.requests hash_value sigs :=
  rfl

/-- The keys stay distinct, the task objects are the ranks of creation, and
the keys are those of the builder before plus that of the signature asked. -/
theorem task_keys (hash_value : Sig → Nat) (sig : Sig) (b : TaskBuilder)
    (hnodup : (b.tasks.map Prod.fst).Nodup)
    (hrank : b.tasks.map Prod.snd = List.range b.tasks.length) :
    ((task hash_value sig b).2.tasks.map Prod.fst).Nodup
      ∧ (task hash_value sig b).2.tasks.map Prod.snd
          = List.range (task hash_value sig b).2.tasks.length
      ∧ ((task hash_value sig b).2.tasks.map Prod.fst).toFinset
          = insert (hash_value sig) (b.tasks.map Prod.fst).toFinset := by
  unfold task
  cases hl : b.tasks.lookup (hash_value sig) with
  | none =>
    have hnew := (lookup_none_iff _ _).mp hl
    refine ⟨?_, ?_, ?_⟩
    · simp only [List.map_append, List.map_cons, List.map_nil]
      exact List.Nodup.append hnodup (List.nodup_singleton _) (by simpa using hnew)
    · simp [hrank, List.range_succ]
    · ext k
      simp [or_comm]
  | some v =>
    refine ⟨hnodup, hrank, ?_⟩
    have hmem : hash_value sig ∈ b.tasks.map Prod.fst := by
      by_contra hcon
      rw [(lookup_none_iff _ _).mpr hcon] at hl
      cases hl
    ext k
    simp only [List.mem_toFinset, Finset.mem_insert]
    constructor
    · exact fun h => Or.inr h
    · rintro (rfl | h)
      · exact hmem
      · exact h

theorem requests_keys (hash_value : Sig → Nat) (sigs : List Sig) (b : TaskBuilder)
    (hnodup : (b.tasks.map Prod.fst).Nodup)
    (hrank : b.tasks.map Prod.snd = List.range b.tasks.length) :
    ((b.requests hash_value sigs).tasks.map Prod.fst).Nodup
      ∧ (b.requests hash_value sigs).tasks.map Prod.snd
          = List.range (b.requests hash_value sigs).tasks.length
      ∧ ((b.requests hash_value sigs).tasks.map Prod.fst).toFinset
          = (sigs.map hash_value).toFinset ∪ (b.tasks.map Prod.fst).toFinset := by
  induction sigs generalizing b with
  | nil => exact ⟨hnodup, hrank, by simp [requests]⟩
  | cons sig sigs ih =>
    obtain ⟨h1, h2, h3⟩ := task_keys hash_value sig b hnodup hrank
    obtain ⟨i1, i2, i3⟩ := ih (task hash_value sig b).2 h1 h2
    rw [requests_cons]
    refine ⟨i1, i2, ?_⟩
    rw [i3, h3]
    ext k
    simp only [List.map_cons, List.toFinset_cons, Finset.mem_union, Finset.mem_insert]
    tauto

theorem task_lookup_self (hash_value : Sig → Nat) (sig : Sig) (b : TaskBuilder) :
    (task hash_value sig b).2.tasks.lookup (hash_value sig) = some (task hash_value sig b).1 := by
  unfold task
  cases hl : b.tasks.lookup (hash_value sig) with
  | none => simp [List.lookup_append, hl, List.lookup_cons]
  | some v => exact hl

theorem task_lookup_kept (hash_value : Sig → Nat) (sig : Sig) (b : TaskBuilder) (k v : Nat)
    (hk : b.tasks.lookup k = some v) : (task hash_value sig b).2.tasks.lookup k = some v := by
  unfold task
  cases hl : b.tasks.lookup (hash_value sig) with
  | none => simp [List.lookup_append, hk]
  | some v => exact hk

theorem requests_lookup_kept (hash_value : Sig → Nat) (sigs : List Sig) (b : TaskBuilder)
    (k v : Nat) (hk : b.tasks.lookup k = some v) :
    (b.requests hash_value sigs).tasks.lookup k = some v := by
  induction sigs generalizing b with
  | nil => exact hk
  | cons sig sigs ih =>
    rw [requests_cons]
    exact ih _ (task_lookup_kept hash_value sig b k v hk)

theorem task_found (hash_value : Sig → Nat) (sig : Sig) (b : TaskBuilder) (v : Nat)
    (hk : b.tasks.lookup (hash_value sig) = some v) : task hash_value sig b = (v, b) := by
  simp [task, hk]

theorem requests_append (hash_value : Sig → Nat) (b : TaskBuilder) (xs ys : List Sig) :
    b.requests hash_value (xs ++ ys) = (b.requests hash_value xs).requests hash_value ys := by
  simp [requests, List.foldl_append]

theorem requests_snoc (hash_value : Sig → Nat) (b : TaskBuilder) (xs : List Sig) (sig : Sig) :
    b.requests hash_value (xs ++ [sig]) = (task hash_value sig (b.requests hash_value xs)).2 := by
  rw [requests_append]
  rfl

theorem empty_requests_keys (hash_value : Sig → Nat) (sigs : List Sig) :
    ((empty.requests hash_value sigs).tasks.map Prod.fst).Nodup
      ∧ (empty.requests hash_value sigs).tasks.map Prod.snd
          = List.range (empty.requests hash_value sigs).tasks.length
      ∧ ((empty.requests hash_value sigs).tasks.map Prod.fst).toFinset
          = (sigs.map hash_value).toFinset := by
  obtain ⟨h1, h2, h3⟩ := requests_keys hash_value sigs empty (by simp [empty]) (by simp [empty])
  refine ⟨h1, h2, ?_⟩
  rw [h3]
  simp [empty]

theorem card_map_injective [DecidableEq Sig] (hash_value : Sig → Nat)
    (hinj : Function.Injective hash_value) (sigs : List Sig) :
    (sigs.map hash_value).toFinset.card = sigs.toFinset.card := by
  have : (sigs.map hash_value).toFinset = sigs.toFinset.image hash_value := by
    ext k
    simp
  rw [this, Finset.card_image_of_injective _ hinj]

end TaskBuilder

/-! ## Lemmas on the cache file -/

namespace CacheFile

theorem fwrite_at_end (data : List Byte) (f : CacheFile) :
    ((f.fseekEnd).fwrite data).bytes = f.bytes ++ data := by
  unfold fwrite fseekEnd
  cases data with
  | nil => simp
  | cons d ds => simp

theorem fread_bytes (n : Nat) (f : CacheFile) : (f.fread n).2.bytes = f.bytes := rfl

end CacheFile

namespace AudioPlayer

theorem bufferStep_prefix (s : AudioPlayer) (f : CacheFile) (ev : BufferEvent)
    (hfile : s.cachefile = some f) :
    ∃ g, (s.bufferStep ev).cachefile = some g ∧ f.bytes <+: g.bytes := by
  cases ev with
  | command c => exact ⟨f, hfile, List.prefix_refl _⟩
  | chunk data written =>
    simp only [bufferStep, dataCallback]
    split
    · exact ⟨f, hfile, List.prefix_refl _⟩
    · refine ⟨(f.fseekEnd).fwrite (data.take written), by simp [hfile], ?_⟩
      rw [CacheFile.fwrite_at_end]
      exact List.prefix_append _ _
  | read currentOffset =>
    simp only [bufferStep, readChunk, hfile]
    exact ⟨_, rfl, List.prefix_refl _⟩

theorem bufferRun_prefix (events : List BufferEvent) (s : AudioPlayer) (f : CacheFile)
    (hfile : s.cachefile = some f) :
    ∃ g, (s.bufferRun events).cachefile = some g ∧ f.bytes <+: g.bytes := by
  induction events generalizing s f with
  | nil => exact ⟨f, hfile, List.prefix_refl _⟩
  | cons ev events ih =>
    obtain ⟨g, hg, hfg⟩ := bufferStep_prefix s f ev hfile
    obtain ⟨k, hk, hgk⟩ := ih (s.bufferStep ev) g hg
    exact ⟨k, hk, hfg.trans hgk⟩

end AudioPlayer

/-! ## Lemmas on the playback routine -/

namespace Playback

variable {X : Type}

theorem exit_point (ext : External X) (p : Playback X) : (p.exit ext).routine.point = .exited :=
  rfl

theorem exit_status (ext : External X) (p : Playback X) :
    (p.exit ext).player.playerStatus = .idle := rfl

theorem exit_delegate (ext : External X) (p : Playback X) :
    (p.exit ext).player.delegate = p.player.delegate.map (· ++ [.playbackFinished]) := rfl

theorem wake_read (ext : External X) (p : Playback X) (f : CacheFile)
    (hfile : p.player.cachefile = some f)
    (hstop : p.player.requestedCommand ≠ .stop) (hpause : p.player.requestedCommand ≠ .pause) :
    (p.wake ext).routine.readBuffer = (f.bytes.drop p.routine.currentOffset).take READBUF_SIZE
      ∧ (p.wake ext).routine.currentOffset
          = p.routine.currentOffset + (p.wake ext).routine.readBuffer.length
      ∧ (p.wake ext).routine.read = (p.wake ext).routine.readBuffer.length
      ∧ (p.wake ext).routine.point = .decoding
      ∧ (p.wake ext).player.cachefile
          = some { bytes := f.bytes
                   pos := p.routine.currentOffset + (p.wake ext).routine.readBuffer.length } := by
  unfold wake
  rw [if_neg hstop, if_neg hpause]
  by_cases hpro : p.player.requestedCommand = .proceed <;>
    simp [hpro, AudioPlayer.readChunk, hfile, CacheFile.fread, CacheFile.fseekSet]

end Playback

namespace Playback

variable {X : Type}

theorem decodeFold_player (ext : External X) (outs : List DecodeOutcome)
    (st : AudioPlayer × PlayRoutine X) :
    (outs.foldl (AudioPlayer.decodeOutcome ext) st).1.requestedCommand = st.1.requestedCommand
      ∧ (outs.foldl (AudioPlayer.decodeOutcome ext) st).1.shouldReportProgress
          = st.1.shouldReportProgress
      ∧ (outs.foldl (AudioPlayer.decodeOutcome ext) st).1.totalSize = st.1.totalSize
      ∧ (outs.foldl (AudioPlayer.decodeOutcome ext) st).1.delegate.isSome = st.1.delegate.isSome
      ∧ (outs.foldl (AudioPlayer.decodeOutcome ext) st).2.currentOffset = st.2.currentOffset := by
  induction outs generalizing st with
  | nil => exact ⟨rfl, rfl, rfl, rfl, rfl⟩
  | cons o outs ih =>
    obtain ⟨h1, h2, h3, h4, h5⟩ := ih (AudioPlayer.decodeOutcome ext st o)
    simp only [List.foldl_cons]
    rw [h1, h2, h3, h4, h5]
    cases o with
    | newFormat rate channels encsize =>
      refine ⟨rfl, rfl, rfl, ?_, rfl⟩
      simp [AudioPlayer.decodeOutcome, AudioPlayer.notify]
    | ok audioData => exact ⟨rfl, rfl, rfl, rfl, rfl⟩
    | other => exact ⟨rfl, rfl, rfl, rfl, rfl⟩

theorem decodeFold_queue (ext : External X) (outs : List DecodeOutcome)
    (st : AudioPlayer × PlayRoutine X) :
    (outs.foldl (AudioPlayer.decodeOutcome ext) st).1.progressQueue = st.1.progressQueue := by
  induction outs generalizing st with
  | nil => rfl
  | cons o outs ih =>
    simp only [List.foldl_cons]
    rw [ih]
    cases o <;> rfl

theorem progressOf_mono (rnd : ℚ → ℚ) (hmono : Monotone rnd) (hone : rnd 1 = 1)
    (total a b : Nat) (htotal : 0 < total) (hab : a ≤ b) :
    progressOf rnd total a ≤ progressOf rnd total b := by
  unfold progressOf
  apply hmono
  have hT : (1 : ℚ) ≤ rnd total := by
    rw [← hone]
    exact hmono (by exact_mod_cast htotal)
  have hle : rnd a ≤ rnd b := hmono (by exact_mod_cast hab)
  exact div_le_div_of_nonneg_right hle (by linarith)

theorem progressOf_self (rnd : ℚ → ℚ) (hmono : Monotone rnd) (hone : rnd 1 = 1)
    (total : Nat) (htotal : 0 < total) : progressOf rnd total total = 1 := by
  unfold progressOf
  have hT : (1 : ℚ) ≤ rnd total := by
    rw [← hone]
    exact hmono (by exact_mod_cast htotal)
  rw [div_self (by linarith), hone]

theorem readChunk_fields (s : AudioPlayer) (offset : Nat) :
    (s.readChunk offset).2.requestedCommand = s.requestedCommand
      ∧ (s.readChunk offset).2.shouldReportProgress = s.shouldReportProgress
      ∧ (s.readChunk offset).2.totalSize = s.totalSize := by
  unfold AudioPlayer.readChunk
  cases s.cachefile <;> exact ⟨rfl, rfl, rfl⟩

theorem seekHandling_idle (ext : External X) (rnd : ℚ → ℚ) (s : AudioPlayer) (l : PlayRoutine X)
    (hcmd : s.requestedCommand ≠ .seek) : AudioPlayer.seekHandling ext rnd s l = (s, l) := by
  simp [AudioPlayer.seekHandling, hcmd]

theorem consumerStep_steady (ext : External X) (rnd : ℚ → ℚ) (hmono : Monotone rnd)
    (hone : rnd 1 = 1) (total : Nat) (htotal : 0 < total) (p : Playback X)
    (h : p.Steady rnd total) : (p.consumerStep ext rnd).Steady rnd total := by
  obtain ⟨hcmd, hrep, hsize, hsorted, hbound⟩ := h
  unfold consumerStep
  cases hpt : p.routine.point with
  | seekCheck =>
    simp only [seekHandling_idle ext rnd p.player p.routine hcmd]
    exact ⟨hcmd, hrep, hsize, hsorted, hbound⟩
  | waiting =>
    simp only
    by_cases hw : p.player.waitPredicate = true
    · rw [if_pos hw]
      unfold wake
      by_cases hstop : p.player.requestedCommand = .stop
      · rw [if_pos hstop]
        exact ⟨hcmd, hrep, hsize, hsorted, hbound⟩
      · rw [if_neg hstop]
        by_cases hpause : p.player.requestedCommand = .pause
        · rw [if_pos hpause]
          exact ⟨hcmd, hrep, hsize, hsorted, hbound⟩
        · rw [if_neg hpause]
          have hf := readChunk_fields
            (if p.player.requestedCommand = .proceed then
              { p.player with playerStatus := .playing } else p.player)
            p.routine.currentOffset
          have hs1 : (if p.player.requestedCommand = .proceed then
              ({ p.player with playerStatus := .playing } : AudioPlayer) else p.player)
                = { p.player with playerStatus :=
                      (if p.player.requestedCommand = .proceed then .playing
                        else p.player.playerStatus) } := by
            split <;> rfl
          rw [hs1] at hf
          simp only [hs1]
          refine ⟨?_, ?_, ?_, hsorted, ?_⟩
          · rw [hf.1]; exact hcmd
          · rw [hf.2.1]; exact hrep
          · rw [hf.2.2]; exact hsize
          · intro v hv
            exact (hbound v hv).trans
              (progressOf_mono rnd hmono hone total _ _ htotal (Nat.le_add_right _ _))
    · rw [if_neg hw]
      exact ⟨hcmd, hrep, hsize, hsorted, hbound⟩
  | decoding =>
    simp only
    unfold decode
    obtain ⟨f1, f2, f3, f4, f5⟩ := decodeFold_player ext
      (ext.decodeFrames (ext.feed p.routine.ext p.routine.readBuffer)
        p.player.currentVolumeScale).1
      (p.player, { p.routine with
        ext := (ext.decodeFrames (ext.feed p.routine.ext p.routine.readBuffer)
          p.player.currentVolumeScale).2 })
    simp only at f1 f2 f3 f4 f5 ⊢
    split
    · rename_i hc
      simp only [Bool.and_eq_true, decide_eq_true_eq] at hc
      have hts : p.player.totalSize = total := by
        rcases hsize with h0 | ht
        · have := hc.1.2
          rw [f3, h0] at this
          exact absurd this (Nat.lt_irrefl 0)
        · exact ht
      refine ⟨?_, ?_, ?_, ?_, ?_⟩
      · show _ ≠ _
        simp only [AudioPlayer.notify]
        rw [f1]; exact hcmd
      · simp only [AudioPlayer.notify]
        rw [f2]; exact hrep
      · simp only [AudioPlayer.notify]
        rw [f3]; exact hsize
      · simp only [f3, f5, hts]
        rw [List.Sorted, List.pairwise_append]
        refine ⟨hsorted, List.pairwise_singleton _ _, ?_⟩
        intro a ha b hb
        rw [List.mem_singleton] at hb
        subst hb
        exact hbound a ha
      · simp only [f3, f5, hts]
        intro v hv
        rcases List.mem_append.mp hv with h | h
        · exact hbound v h
        · rw [List.mem_singleton] at h
          subst h
          exact le_refl _
    · refine ⟨?_, ?_, ?_, hsorted, ?_⟩
      · show _ ≠ _
        simp only
        rw [f1]; exact hcmd
      · simp only
        rw [f2]; exact hrep
      · simp only
        rw [f3]; exact hsize
      · simp only [f5]
        exact hbound
  | loopEnd =>
    simp only
    unfold loopEnd
    split
    · exact ⟨hcmd, hrep, hsize, hsorted, hbound⟩
    · simp only
      split
      · exact ⟨hcmd, hrep, hsize, hsorted, hbound⟩
      · exact ⟨hcmd, hrep, hsize, hsorted, hbound⟩
  | exited => exact ⟨hcmd, hrep, hsize, hsorted, hbound⟩

theorem step_steady (ext : External X) (rnd : ℚ → ℚ) (hmono : Monotone rnd)
    (hone : rnd 1 = 1) (total : Nat) (htotal : 0 < total) (p : Playback X) (e : PlaybackEvent)
    (h : p.Steady rnd total) (he : e.steady total = true) :
    (p.step ext rnd e).Steady rnd total := by
  cases e with
  | consumer => exact consumerStep_steady ext rnd hmono hone total htotal p h
  | data chunk written =>
    obtain ⟨hcmd, hrep, hsize, hsorted, hbound⟩ := h
    simp only [step, AudioPlayer.dataCallback]
    split
    · exact ⟨hcmd, hrep, hsize, hsorted, hbound⟩
    · exact ⟨hcmd, hrep, hsize, hsorted, hbound⟩
  | progress t received =>
    obtain ⟨hcmd, hrep, hsize, hsorted, hbound⟩ := h
    have ht : t = total := by simpa [PlaybackEvent.steady] using he
    exact ⟨hcmd, hrep, Or.inr ht, hsorted, hbound⟩
  | downloadDone => exact h
  | pause =>
    obtain ⟨hcmd, hrep, hsize, hsorted, hbound⟩ := h
    exact ⟨by simp [step, AudioPlayer.pause], hrep, hsize, hsorted, hbound⟩
  | resume =>
    obtain ⟨hcmd, hrep, hsize, hsorted, hbound⟩ := h
    exact ⟨by simp [step, AudioPlayer.resume], hrep, hsize, hsorted, hbound⟩
  | seek seconds => simp [PlaybackEvent.steady] at he
  | changeVolume volumeScale =>
    obtain ⟨hcmd, hrep, hsize, hsorted, hbound⟩ := h
    simp only [step, AudioPlayer.changeVolume]
    split
    · exact ⟨hcmd, hrep, hsize, hsorted, hbound⟩
    · exact ⟨hcmd, hrep, hsize, hsorted, hbound⟩
  | getLastProgressValue =>
    obtain ⟨hcmd, hrep, hsize, hsorted, hbound⟩ := h
    simp only [step, AudioPlayer.getLastProgressValue]
    cases p.player.progressQueue <;> exact ⟨hcmd, hrep, hsize, hsorted, hbound⟩

theorem run_steady (ext : External X) (rnd : ℚ → ℚ) (hmono : Monotone rnd)
    (hone : rnd 1 = 1) (total : Nat) (htotal : 0 < total) (events : List PlaybackEvent)
    (p : Playback X) (h : p.Steady rnd total) (he : ∀ e ∈ events, e.steady total = true) :
    (p.run ext rnd events).Steady rnd total := by
  induction events generalizing p with
  | nil => exact h
  | cons e events ih =>
    have hrun : p.run ext rnd (e :: events) = (p.step ext rnd e).run ext rnd events := rfl
    rw [hrun]
    exact ih _ (step_steady ext rnd hmono hone total htotal p e h
      (he e (List.mem_cons_self _ _))) (fun e' he' => he e' (List.mem_cons_of_mem _ he'))

/-- What a decoding step publishes when reporting is on, the total known and
a delegate set. -/
theorem decode_published (ext : External X) (rnd : ℚ → ℚ) (p : Playback X)
    (hrep : p.player.shouldReportProgress = true) (hsize : 0 < p.player.totalSize)
    (hdel : p.player.delegate.isSome = true) :
    (p.decode ext rnd).published
      = p.published ++ [progressOf rnd p.player.totalSize p.routine.currentOffset] := by
  unfold decode
  obtain ⟨-, f2, f3, f4, f5⟩ := decodeFold_player ext
    (ext.decodeFrames (ext.feed p.routine.ext p.routine.readBuffer)
      p.player.currentVolumeScale).1
    (p.player, { p.routine with
      ext := (ext.decodeFrames (ext.feed p.routine.ext p.routine.readBuffer)
        p.player.currentVolumeScale).2 })
  simp only at f2 f3 f4 f5 ⊢
  rw [if_pos (by simp [f2, f3, f4, hrep, hsize, hdel])]
  simp only [f3, f5, progressOf]

/-- What a decoding step leaves on `progressQueue`, in `published` and with
the delegate when it publishes. -/
theorem decode_pushes (ext : External X) (rnd : ℚ → ℚ) (p : Playback X)
    (hrep : p.player.shouldReportProgress = true) (hsize : 0 < p.player.totalSize)
    (hdel : p.player.delegate.isSome = true) :
    (p.decode ext rnd).player.progressQueue
        = p.player.progressQueue ++ [rnd (rnd p.routine.currentOffset / rnd p.player.totalSize)]
      ∧ ∃ calls, (p.decode ext rnd).player.delegate
          = some (calls ++ [.updatePlaybackProgress]) := by
  unfold decode
  obtain ⟨-, f2, f3, f4, f5⟩ := decodeFold_player ext
    (ext.decodeFrames (ext.feed p.routine.ext p.routine.readBuffer)
      p.player.currentVolumeScale).1
    (p.player, { p.routine with
      ext := (ext.decodeFrames (ext.feed p.routine.ext p.routine.readBuffer)
        p.player.currentVolumeScale).2 })
  have f6 := decodeFold_queue ext
    (ext.decodeFrames (ext.feed p.routine.ext p.routine.readBuffer)
      p.player.currentVolumeScale).1
    (p.player, { p.routine with
      ext := (ext.decodeFrames (ext.feed p.routine.ext p.routine.readBuffer)
        p.player.currentVolumeScale).2 })
  simp only at f2 f3 f4 f5 f6 ⊢
  rw [if_pos (by simp [f2, f3, f4, hrep, hsize, hdel])]
  refine ⟨by simp only [AudioPlayer.notify, f3, f5, f6], ?_⟩
  rw [hdel] at f4
  obtain ⟨calls, hcalls⟩ := Option.isSome_iff_exists.mp f4
  exact ⟨calls, by simp [AudioPlayer.notify, hcalls]⟩

/-- A decoding step that does not publish leaves the queue as it was. -/
theorem decode_silent (ext : External X) (rnd : ℚ → ℚ) (p : Playback X)
    (h : ¬ (p.player.shouldReportProgress = true ∧ 0 < p.player.totalSize
      ∧ p.player.delegate.isSome = true)) :
    (p.decode ext rnd).player.progressQueue = p.player.progressQueue
      ∧ (p.decode ext rnd).published = p.published := by
  unfold decode
  obtain ⟨-, f2, f3, f4, f5⟩ := decodeFold_player ext
    (ext.decodeFrames (ext.feed p.routine.ext p.routine.readBuffer)
      p.player.currentVolumeScale).1
    (p.player, { p.routine with
      ext := (ext.decodeFrames (ext.feed p.routine.ext p.routine.readBuffer)
        p.player.currentVolumeScale).2 })
  have f6 := decodeFold_queue ext
    (ext.decodeFrames (ext.feed p.routine.ext p.routine.readBuffer)
      p.player.currentVolumeScale).1
    (p.player, { p.routine with
      ext := (ext.decodeFrames (ext.feed p.routine.ext p.routine.readBuffer)
        p.player.currentVolumeScale).2 })
  simp only at f2 f3 f4 f5 f6 ⊢
  rw [if_neg (by
    simp only [f2, f3, f4, Bool.and_eq_true, decide_eq_true_eq]
    intro hc
    exact h ⟨hc.1.1, hc.1.2, hc.2⟩)]
  exact ⟨f6, rfl⟩

end Playback

/-- The labels before `CURLE_TOO_MANY_REDIRECTS` differ from it when the labels
are pairwise distinct. -/
theorem HttpError.labels_last (k : CurlCodes) (hlabels : k.labels.Nodup) :
    k.CURLE_TOO_MANY_REDIRECTS ≠ k.CURLE_OK
      ∧ k.CURLE_TOO_MANY_REDIRECTS ≠ k.CURLE_UNSUPPORTED_PROTOCOL
      ∧ k.CURLE_TOO_MANY_REDIRECTS ≠ k.CURLE_URL_MALFORMAT
      ∧ k.CURLE_TOO_MANY_REDIRECTS ≠ k.CURLE_COULDNT_RESOLVE_PROXY
      ∧ k.CURLE_TOO_MANY_REDIRECTS ≠ k.CURLE_COULDNT_RESOLVE_HOST
      ∧ k.CURLE_TOO_MANY_REDIRECTS ≠ k.CURLE_COULDNT_CONNECT
      ∧ k.CURLE_TOO_MANY_REDIRECTS ≠ k.CURLE_OPERATION_TIMEDOUT
      ∧ k.CURLE_TOO_MANY_REDIRECTS ≠ k.CURLE_SSL_CONNECT_ERROR
      ∧ k.CURLE_TOO_MANY_REDIRECTS ≠ k.CURLE_PEER_FAILED_VERIFICATION
      ∧ k.CURLE_TOO_MANY_REDIRECTS ≠ k.CURLE_GOT_NOTHING
      ∧ k.CURLE_TOO_MANY_REDIRECTS ≠ k.CURLE_SSL_ENGINE_NOTFOUND
      ∧ k.CURLE_TOO_MANY_REDIRECTS ≠ k.CURLE_SSL_ENGINE_SETFAILED
      ∧ k.CURLE_TOO_MANY_REDIRECTS ≠ k.CURLE_SEND_ERROR
      ∧ k.CURLE_TOO_MANY_REDIRECTS ≠ k.CURLE_RECV_ERROR
      ∧ k.CURLE_TOO_MANY_REDIRECTS ≠ k.CURLE_SSL_CERTPROBLEM
      ∧ k.CURLE_TOO_MANY_REDIRECTS ≠ k.CURLE_SSL_CIPHER
      ∧ k.CURLE_TOO_MANY_REDIRECTS ≠ k.CURLE_SSL_CACERT
      ∧ k.CURLE_TOO_MANY_REDIRECTS ≠ k.CURLE_USE_SSL_FAILED
      ∧ k.CURLE_TOO_MANY_REDIRECTS ≠ k.CURLE_SSL_ENGINE_INITFAILED
      ∧ k.CURLE_TOO_MANY_REDIRECTS ≠ k.CURLE_SSL_CACERT_BADFILE
      ∧ k.CURLE_TOO_MANY_REDIRECTS ≠ k.CURLE_SSL_SHUTDOWN_FAILED
      ∧ k.CURLE_TOO_MANY_REDIRECTS ≠ k.CURLE_SSL_CRL_BADFILE
      ∧ k.CURLE_TOO_MANY_REDIRECTS ≠ k.CURLE_SSL_ISSUER_ERROR := by
  have happ : k.labels = k.labels.dropLast ++ [k.CURLE_TOO_MANY_REDIRECTS] := rfl
  rw [happ] at hlabels
  have hdis := (List.nodup_append.mp hlabels).2.2
  have hmem : ∀ x ∈ k.labels.dropLast, k.CURLE_TOO_MANY_REDIRECTS ≠ x :=
    fun x hx e => hdis hx (by simp [e])
  simp only [CurlCodes.labels, List.dropLast, List.forall_mem_cons] at hmem
  exact ⟨hmem.1, hmem.2.1, hmem.2.2.1, hmem.2.2.2.1, hmem.2.2.2.2.1, hmem.2.2.2.2.2.1,
    hmem.2.2.2.2.2.2.1, hmem.2.2.2.2.2.2.2.1, hmem.2.2.2.2.2.2.2.2.1,
    hmem.2.2.2.2.2.2.2.2.2.1, hmem.2.2.2.2.2.2.2.2.2.2.1, hmem.2.2.2.2.2.2.2.2.2.2.2.1,
    hmem.2.2.2.2.2.2.2.2.2.2.2.2.1, hmem.2.2.2.2.2.2.2.2.2.2.2.2.2.1,
    hmem.2.2.2.2.2.2.2.2.2.2.2.2.2.2.1, hmem.2.2.2.2.2.2.2.2.2.2.2.2.2.2.2.1,
    hmem.2.2.2.2.2.2.2.2.2.2.2.2.2.2.2.2.1, hmem.2.2.2.2.2.2.2.2.2.2.2.2.2.2.2.2.2.1,
    hmem.2.2.2.2.2.2.2.2.2.2.2.2.2.2.2.2.2.2.1, hmem.2.2.2.2.2.2.2.2.2.2.2.2.2.2.2.2.2.2.2.1,
    hmem.2.2.2.2.2.2.2.2.2.2.2.2.2.2.2.2.2.2.2.2.1,
    hmem.2.2.2.2.2.2.2.2.2.2.2.2.2.2.2.2.2.2.2.2.2.1,
    hmem.2.2.2.2.2.2.2.2.2.2.2.2.2.2.2.2.2.2.2.2.2.2.1⟩

theorem HttpError.ite_ne_ok {c : Prop} [Decidable c] {a b : HttpErrorCode}
    (ha : a ≠ .OK) (hb : b ≠ .OK) : (if c then a else b) ≠ .OK := by
  split <;> assumption

/-- A code other than the two labels that return `OK` is mapped to an error. -/
theorem HttpError.chain_ne_ok (k : CurlCodes) (curl_code : Nat)
    (h1 : curl_code ≠ k.CURLE_OK) (h2 : curl_code ≠ k.CURLE_TOO_MANY_REDIRECTS) :
    HttpError.getErrorCodeForCurlError k curl_code ≠ .OK := by
  unfold HttpError.getErrorCodeForCurlError
  rw [if_neg h1]
  iterate 22 refine HttpError.ite_ne_ok (by decide) ?_
  rw [if_neg h2]
  decide

namespace RWLockHandle

theorem step_exclusive (h h1 : RWLockHandle) (c : RWCall) (hstep : h.step c = some h1)
    (hr : 0 ≤ h.activeReaders)
    (hw : h.activeWriters = 0 ∨ (h.activeWriters = 1 ∧ h.activeReaders = 0)) :
    0 ≤ h1.activeReaders
      ∧ (h1.activeWriters = 0 ∨ (h1.activeWriters = 1 ∧ h1.activeReaders = 0)) := by
  cases c with
  | readLock =>
    simp only [step, readLock] at hstep
    split at hstep
    · cases hstep
      rename_i h0
      exact ⟨by simp only; omega, Or.inl h0⟩
    · cases hstep
  | writeLock =>
    simp only [step, writeLock] at hstep
    split at hstep
    · cases hstep
      rename_i h0
      exact ⟨by simp only; omega, Or.inr ⟨by simp only; omega, h0.1⟩⟩
    · cases hstep
  | readUnlock =>
    simp only [step, readUnlock] at hstep
    split at hstep
    · cases hstep
      rename_i h0
      refine ⟨by simp only; omega, Or.inl ?_⟩
      simp only
      omega
    · cases hstep
  | writeUnlock =>
    simp only [step, writeUnlock] at hstep
    split at hstep
    · cases hstep
      rename_i h0
      refine ⟨hr, Or.inl ?_⟩
      simp only
      omega
    · cases hstep

theorem run_exclusive (calls : List RWCall) (h h1 : RWLockHandle) (hrun : h.run calls = some h1)
    (hr : 0 ≤ h.activeReaders)
    (hw : h.activeWriters = 0 ∨ (h.activeWriters = 1 ∧ h.activeReaders = 0)) :
    0 ≤ h1.activeReaders
      ∧ (h1.activeWriters = 0 ∨ (h1.activeWriters = 1 ∧ h1.activeReaders = 0)) := by
  induction calls generalizing h with
  | nil =>
    simp only [run] at hrun
    cases hrun
    exact ⟨hr, hw⟩
  | cons c calls ih =>
    simp only [run] at hrun
    cases hs : h.step c with
    | none => simp [hs] at hrun
    | some h2 =>
      simp only [hs] at hrun
      obtain ⟨hr2, hw2⟩ := step_exclusive h h2 c hs hr hw
      exact ih h2 hrun hr2 hw2

end RWLockHandle

namespace AudioPlayer

/-- With roundings of relative error at most `u`, sizes that are exact as
doubles and `received * (2u + u²) < 1`, the product `totalSize *
downloadProgress` stays below `received + 1`. -/
theorem downloadedLength_lt (rnd : ℚ → ℚ) (u : ℚ) (total received : Nat) (s : AudioPlayer)
    (htotal : 0 < total) (hsize : s.totalSize = total)
    (hprog : s.downloadProgress = rnd (rnd received / rnd total))
    (hexT : rnd total = total) (hexR : rnd received = received) (hu : 0 ≤ u)
    (herr1 : rnd ((received : ℚ) / total) ≤ (1 + u) * ((received : ℚ) / total))
    (herr2 : rnd ((total : ℚ) * rnd ((received : ℚ) / total))
      ≤ (1 + u) * ((total : ℚ) * rnd ((received : ℚ) / total)))
    (hsmall : (received : ℚ) * (2 * u + u ^ 2) < 1) :
    downloadedLength rnd s < received + 1 := by
  unfold downloadedLength
  rw [hsize, hprog, hexT, hexR]
  have hT : (0 : ℚ) < total := by exact_mod_cast htotal
  have h1 : (total : ℚ) * rnd ((received : ℚ) / total) ≤ (1 + u) * received := by
    have := mul_le_mul_of_nonneg_left herr1 hT.le
    calc (total : ℚ) * rnd ((received : ℚ) / total)
        ≤ total * ((1 + u) * ((received : ℚ) / total)) := this
      _ = (1 + u) * received := by field_simp
  have h2 : (1 + u) * ((total : ℚ) * rnd ((received : ℚ) / total))
      ≤ (1 + u) * ((1 + u) * received) :=
    mul_le_mul_of_nonneg_left h1 (by linarith)
  calc rnd ((total : ℚ) * rnd ((received : ℚ) / total))
      ≤ (1 + u) * ((total : ℚ) * rnd ((received : ℚ) / total)) := herr2
    _ ≤ (1 + u) * ((1 + u) * received) := h2
    _ = received + received * (2 * u + u ^ 2) := by ring
    _ < received + 1 := by linarith

end AudioPlayer

/-! ## Theorems -/

/-- C1: for a task whose job is set, with nothing pending and a live worker,
after `run(a_1)`, ..., `run(a_N)` and a pass of the worker, `N` calls of
`get()` return, in the order of the `run` calls, what the job yields on
`a_1`, ..., `a_N`. -/
theorem Task.get_fifo {ε ρ α E : Type} [Inhabited ρ] (s : QueueSystem (TaskWorld ε ρ α E))
    (fn : JobType ε ρ α E) (as : List α)
    (hjob : s.world.task.job = some fn)
    (hpending : s.world.task.taskQueue = [])
    (hqueue : s.opq.queue = [])
    (hflag : s.opq.cancellationFlag = false) :
    (Task.getMany as.length ((s.runAll as).step .workerPass).world).1
      = (Task.callInOrder fn s.world.task.completionHandler s.world.task.cancelFlag
          as s.world.env).map some := by
  cases as with
  | nil =>
    simp [QueueSystem.runAll, QueueSystem.step, OperationQueue.workerRoutine, hqueue, hflag,
      Task.getMany, Task.callInOrder]
  | cons a as =>
    have hw := QueueSystem.runAll_world (a :: as) s fn hjob
    have hq := QueueSystem.runAll_opq (a :: as) s fn hjob
    have hstep : ((s.runAll (a :: as)).step .workerPass).world
        = (OperationQueue.drain (s.runAll (a :: as)).opq.tokens (s.runAll (a :: as)).opq.queue
            (s.runAll (a :: as)).world).1 := by
      simp [QueueSystem.step, OperationQueue.workerRoutine, hq, hflag, hqueue, Task.queuedBy]
    rw [hstep, hq, hw]
    simp only [hqueue, List.nil_append, List.isEmpty_cons, Bool.false_eq_true, if_false,
      hpending]
    have hd := Task.drain_routines (insert s.world.self s.opq.tokens) fn (a :: as)
      s.world.shared.length
      { s.world with
        shared := s.world.shared ++ List.replicate (a :: as).length none
        task := { s.world.task with
          taskQueue := List.range' s.world.shared.length (a :: as).length } }
      hjob (Finset.mem_insert_self _ _) (by simp)
    simp only at hd
    rw [hd]
    rw [Task.getMany_range (a :: as).length s.world.shared.length _ [] (by simp)]
    simp only
    have hpre : (List.take s.world.shared.length
        (s.world.shared ++ List.replicate (a :: as).length none)).length
          = s.world.shared.length := by simp
    have hcells : (List.map some (Task.callInOrder fn s.world.task.completionHandler
        s.world.task.cancelFlag (a :: as) s.world.env)).length = (a :: as).length := by
      simp [Task.callInOrder_length]
    have := Task.range_getD (none : SharedState ε ρ)
      (List.take s.world.shared.length (s.world.shared ++ List.replicate (a :: as).length none))
      (List.map some (Task.callInOrder fn s.world.task.completionHandler
        s.world.task.cancelFlag (a :: as) s.world.env))
      (List.drop (s.world.shared.length + (a :: as).length)
        (s.world.shared ++ List.replicate (a :: as).length none))
    rw [hpre, hcells] at this
    exact this

/-- Witness of `Task.get_fifo`: three runs of the halving job. -/
theorem Task.get_fifo_witness :
    (Task.getMany 3 (((QueueSystem.init halveWorld).runAll [4, 5, 10]).step .workerPass).world).1
      = [some (.ok 2), some (.error (.thrown "odd")), some (.ok 5)] :=
  (Task.get_fifo (QueueSystem.init halveWorld) halve [4, 5, 10] rfl rfl rfl rfl).trans
    (by decide)

/-- C2, as amended: once `unregister(token)` has run, and as long as no later
`scheduleTask` carries that token again, every package with that token that
the worker pops is popped without its routine being called; what had been
popped before stays as it was. -/
theorem OperationQueue.unregister_gates {σ : Type} (s : QueueSystem σ) (token : Token)
    (calls : List (QueueCall σ)) (hno : ∀ c ∈ calls, c.schedules token = false) :
    (((s.step (.unregister token)).exec calls).popped.take s.popped.length = s.popped)
      ∧ ∀ d ∈ ((s.step (.unregister token)).exec calls).popped.drop s.popped.length,
          d.1.2 = token → d.2 = false := by
  obtain ⟨fresh, hp, hf⟩ := QueueSystem.exec_gated token calls (s.step (.unregister token))
    (OperationQueue.not_mem_unregister token s.opq) hno
  have hs : (s.step (.unregister token)).popped = s.popped := rfl
  rw [hp, hs]
  constructor
  · simp
  · simpa using hf

/-- C2, as stated, fails: routine 1 is scheduled with token 7, token 7 is
unregistered, routine 2 is scheduled with token 7, and the worker then calls
both routines. -/
theorem OperationQueue.unregister_undone_by_schedule :
    ((QueueSystem.init ([] : List Nat)).exec
        [.scheduleTask (· ++ [1]) 7, .unregister 7, .scheduleTask (· ++ [2]) 7,
          .workerPass]).world = [1, 2]
      ∧ ((QueueSystem.init ([] : List Nat)).exec
        [.scheduleTask (· ++ [1]) 7, .unregister 7, .scheduleTask (· ++ [2]) 7,
          .workerPass]).popped.map (fun d => (d.1.2, d.2)) = [(7, true), (7, true)] := by
  decide

/-- Witness of `OperationQueue.unregister_gates`: two packages of token 7 and
one of token 8 are queued, token 7 is unregistered, another package of token 8
is scheduled and the worker runs. -/
theorem OperationQueue.unregister_gates_witness :
    ((((QueueSystem.init ([] : List Nat)).exec
          [.scheduleTask (· ++ [1]) 7, .scheduleTask (· ++ [2]) 8,
            .scheduleTask (· ++ [3]) 7]).step (.unregister 7)).exec
        [.scheduleTask (· ++ [4]) 8, .workerPass]).world = [2, 4]
      ∧ ∀ d ∈ ((((QueueSystem.init ([] : List Nat)).exec
          [.scheduleTask (· ++ [1]) 7, .scheduleTask (· ++ [2]) 8,
            .scheduleTask (· ++ [3]) 7]).step (.unregister 7)).exec
        [.scheduleTask (· ++ [4]) 8, .workerPass]).popped.drop 0,
          d.1.2 = 7 → d.2 = false :=
  ⟨by decide,
    (OperationQueue.unregister_gates
      ((QueueSystem.init ([] : List Nat)).exec
        [.scheduleTask (· ++ [1]) 7, .scheduleTask (· ++ [2]) 8, .scheduleTask (· ++ [3]) 7])
      7 [.scheduleTask (· ++ [4]) 8, .workerPass] (by decide)).2⟩

/-- C3: after client calls that submit and cancel work, a pass of a live
worker empties the queue; it pops every queued package once, in the order of
submission, calling the routine of a package exactly when its token is in
`tokens` during the pass, and the world is the result of those calls. -/
theorem OperationQueue.worker_drains {σ : Type} (s : QueueSystem σ)
    (calls : List (QueueCall σ)) (hflag : s.opq.cancellationFlag = false)
    (hclient : ∀ c ∈ calls, c.isClient = true) :
    (s.exec calls).opq.queue = s.opq.queue ++ QueueCall.submitted calls
      ∧ ((s.exec calls).step .workerPass).opq.queue = []
      ∧ ((s.exec calls).step .workerPass).opq.tokens = (s.exec calls).opq.tokens
      ∧ ((s.exec calls).step .workerPass).popped
          = s.popped ++ (s.opq.queue ++ QueueCall.submitted calls).map
              (fun p => (p, decide (p.2 ∈ (s.exec calls).opq.tokens)))
      ∧ ((s.exec calls).step .workerPass).world
          = ((s.opq.queue ++ QueueCall.submitted calls).filter
              (fun p => decide (p.2 ∈ (s.exec calls).opq.tokens))).foldl
                (fun w p => p.1 w) s.world := by
  obtain ⟨h1, h2, h3, h4⟩ := QueueSystem.exec_client calls s hclient
  have hlive := OperationQueue.workerRoutine_live (s.exec calls).opq (s.exec calls).world
    (h2.trans hflag)
  refine ⟨h1, ?_, ?_, ?_, ?_⟩
  · simp [QueueSystem.step, hlive]
  · simp [QueueSystem.step, hlive]
  · simp only [QueueSystem.step]
    rw [hlive, OperationQueue.drain_popped, h1, h4]
  · simp only [QueueSystem.step]
    rw [hlive, OperationQueue.drain_world, h1, h3]

/-- Witness of `OperationQueue.worker_drains`: three packages are submitted
and the token of the second is unregistered before the worker runs. -/
theorem OperationQueue.worker_drains_witness :
    (((QueueSystem.init ([] : List Nat)).exec
        [.scheduleTask (· ++ [1]) 7, .scheduleTask (· ++ [2]) 8, .scheduleTask (· ++ [3]) 9,
          .unregister 8]).step .workerPass).world = [1, 3]
      ∧ (((QueueSystem.init ([] : List Nat)).exec
        [.scheduleTask (· ++ [1]) 7, .scheduleTask (· ++ [2]) 8, .scheduleTask (· ++ [3]) 9,
          .unregister 8]).step .workerPass).opq.queue = [] :=
  ⟨by decide,
    (OperationQueue.worker_drains (QueueSystem.init ([] : List Nat))
      [.scheduleTask (· ++ [1]) 7, .scheduleTask (· ++ [2]) 8, .scheduleTask (· ++ [3]) 9,
        .unregister 8] rfl (by decide)).2.1⟩

/-- C9: from construction on and whatever was called before, after a
`shutdown()` the thread is not joinable, so a further `shutdown()`, at once
or after any later calls, takes the branch without a join and changes
nothing; and whatever is called after the first `shutdown()`, the worker pops
and calls nothing more and the world stays as it was. -/
theorem OperationQueue.shutdown_idempotent {σ : Type} (w : σ) (pre post : List (QueueCall σ)) :
    (((QueueSystem.init w).exec pre).step .shutdown).opq.joinable = false
      ∧ (((QueueSystem.init w).exec pre).step .shutdown).step .shutdown
          = ((QueueSystem.init w).exec pre).step .shutdown
      ∧ ((((QueueSystem.init w).exec pre).step .shutdown).exec post).step .shutdown
          = (((QueueSystem.init w).exec pre).step .shutdown).exec post
      ∧ ((((QueueSystem.init w).exec pre).step .shutdown).exec post).popped
          = (((QueueSystem.init w).exec pre).step .shutdown).popped
      ∧ ((((QueueSystem.init w).exec pre).step .shutdown).exec post).world
          = (((QueueSystem.init w).exec pre).step .shutdown).world := by
  have hinv := QueueSystem.exec_init_joined w pre
  have hdown : (((QueueSystem.init w).exec pre).step .shutdown).opq.cancellationFlag = true
      ∧ (((QueueSystem.init w).exec pre).step .shutdown).opq.joinable = false := by
    simp only [QueueSystem.step, OperationQueue.shutdown]
    split
    · exact ⟨rfl, rfl⟩
    · rename_i hj
      have hj1 : ((QueueSystem.init w).exec pre).opq.joinable = false := by simpa using hj
      exact ⟨hinv hj1, hj1⟩
  obtain ⟨h1, h2, h3, h4⟩ := QueueSystem.exec_down post _ hdown.1 hdown.2
  refine ⟨hdown.2, ?_, ?_, h3, h4⟩
  · exact QueueSystem.step_shutdown_joined _ hdown.2
  · exact QueueSystem.step_shutdown_joined _ h2

/-- C4: when the job throws `e` in the invocation whose routine is at the
front of the queue, the exception leaves `setPromise`, is stored in that
invocation's shared state and is what the `get()` consuming that future
rethrows; the routine itself returns, and the same pass of the worker pops
every remaining package, calling those whose token is live. -/
theorem Task.job_error_captured {ε ρ α E : Type} [Inhabited ρ]
    (s : QueueSystem (TaskWorld ε ρ α E)) (fn : JobType ε ρ α E) (promise : Nat) (a : α) (e : ε)
    (pending : List Nat) (rest : List (TaskPackage (TaskWorld ε ρ α E)))
    (hjob : s.world.task.job = some fn)
    (hthrow : (fn s.world.task.cancelFlag a s.world.env).1 = .error e)
    (hprom : promise < s.world.shared.length)
    (hpending : s.world.task.taskQueue = promise :: pending)
    (hqueue : s.opq.queue = (Task.routine promise a, s.world.self) :: rest)
    (htok : s.world.self ∈ s.opq.tokens)
    (hflag : s.opq.cancellationFlag = false) :
    (Task.setPromise promise a s.world).2 = some (.thrown e)
      ∧ (Task.routine promise a s.world).shared.getD promise none = some (.error (.thrown e))
      ∧ (Task.get (Task.routine promise a s.world)).1 = some (.error (.thrown e))
      ∧ (s.step .workerPass).popped
          = s.popped ++ ((Task.routine promise a, s.world.self), true)
              :: rest.map (fun p => (p, decide (p.2 ∈ s.opq.tokens)))
      ∧ (s.step .workerPass).world
          = (rest.filter (fun p => decide (p.2 ∈ s.opq.tokens))).foldl (fun w p => p.1 w)
              (Task.routine promise a s.world)
      ∧ (s.step .workerPass).opq.queue = [] := by
  have hr := Task.routine_eq promise a s.world fn hjob
  have hcell : (Task.routine promise a s.world).shared.getD promise none
      = some (.error (.thrown e)) := by
    rw [hr, hthrow]
    simp [Task.stored, List.getD_eq_getElem?_getD, hprom]
  have hlive := OperationQueue.workerRoutine_live s.opq s.world hflag
  refine ⟨?_, hcell, ?_, ?_, ?_, ?_⟩
  · unfold Task.setPromise
    rw [hjob]
    rcases hfn : fn s.world.task.cancelFlag a s.world.env with ⟨r, env1⟩
    rw [hfn] at hthrow
    simp only at hthrow
    subst hthrow
    simp [hfn]
  · have htq : (Task.routine promise a s.world).task.taskQueue = promise :: pending := by
      rw [hr]; exact hpending
    simp only [Task.get, htq]
    exact hcell
  · simp only [QueueSystem.step]
    rw [hlive, OperationQueue.drain_popped, hqueue]
    simp [htok]
  · simp only [QueueSystem.step]
    rw [hlive, OperationQueue.drain_world, hqueue]
    simp [htok]
  · simp only [QueueSystem.step]
    rw [hlive]

/-- Witness of `Task.job_error_captured`: `run(5)` then `run(4)` of the
halving job, which throws on 5. -/
theorem Task.job_error_captured_witness :
    (Task.get (Task.routine 0 5 ((QueueSystem.init halveWorld).runAll [5, 4]).world)).1
        = some (.error (.thrown "odd"))
      ∧ ((((QueueSystem.init halveWorld).runAll [5, 4]).step .workerPass).popped.map
          (fun d => (d.1.2, d.2))) = [(7, true), (7, true)] :=
  ⟨(Task.job_error_captured ((QueueSystem.init halveWorld).runAll [5, 4]) halve 0 5 "odd" [1]
      [(Task.routine 1 4, 7)] rfl rfl (by decide) rfl rfl (by decide) rfl).2.2.1,
    by decide⟩

/-- C5: in every invocation the worker executes, the completion handler, when
set, runs once and after the job: the environment the routine leaves is the
handler applied to the environment the job left, whether the job returned or
threw. -/
theorem Task.completion_after_job {ε ρ α E : Type} (w : TaskWorld ε ρ α E)
    (fn : JobType ε ρ α E) (handler : E → E) (promise : Nat) (a : α)
    (hjob : w.task.job = some fn) (hhandler : w.task.completionHandler = some handler) :
    (Task.routine promise a w).env = handler (fn w.task.cancelFlag a w.env).2 := by
  rw [Task.routine_eq promise a w fn hjob, hhandler]
  rfl

/-- Witness of `Task.completion_after_job`: the halving job counts one call,
the hook adds 100, both on a value returned (4) and on a throw (5). -/
theorem Task.completion_after_job_witness :
    (Task.routine 0 4 halveWorld).env = 101 ∧ (Task.routine 0 5 halveWorld).env = 101 :=
  ⟨Task.completion_after_job halveWorld halve (· + 100) 0 4 rfl rfl,
    Task.completion_after_job halveWorld halve (· + 100) 0 5 rfl rfl⟩

/-- C6: `get()` with no pending future returns the default value at once
(it does not block) and leaves the task, its empty pending queue included, as
it was. -/
theorem Task.get_empty {ε ρ α E : Type} [Inhabited ρ] (w : TaskWorld ε ρ α E)
    (hempty : w.task.taskQueue = []) :
    Task.get w = (some (.ok default), w) ∧ (Task.get w).2.task.taskQueue = [] := by
  simp [Task.get, hempty]

/-- Witness of `Task.get_empty`: a task on which `run` was never called. -/
theorem Task.get_empty_witness :
    Task.get halveWorld = (some (.ok 0), halveWorld)
      ∧ (Task.get halveWorld).2.task.taskQueue = [] :=
  Task.get_empty halveWorld rfl

/-- C7, as amended: on a task whose job is set, each `run` pushes exactly one
future, that of a fresh shared state, and queues exactly one routine, with the
task's address as token; so `k` runs without a `get()` make the pending queue
and the operation queue `k` longer. -/
theorem Task.run_pushes_one {ε ρ α E : Type} (s : QueueSystem (TaskWorld ε ρ α E))
    (fn : JobType ε ρ α E) (as : List α) (hjob : s.world.task.job = some fn) :
    (∀ a, (s.run a).world.task.taskQueue = s.world.task.taskQueue ++ [s.world.shared.length]
        ∧ (s.run a).opq.queue
            = s.opq.queue ++ [(Task.routine s.world.shared.length a, s.world.self)])
      ∧ (s.runAll as).world.task.taskQueue.length = s.world.task.taskQueue.length + as.length
      ∧ (s.runAll as).opq.queue.length = s.opq.queue.length + as.length := by
  refine ⟨fun a => ?_, ?_, ?_⟩
  · rw [QueueSystem.run_eq a s fn hjob]
    exact ⟨rfl, rfl⟩
  · rw [QueueSystem.runAll_world as s fn hjob]
    simp
  · rw [QueueSystem.runAll_opq as s fn hjob]
    simp [Task.queuedBy_length]

/-- Witness of `Task.run_pushes_one`: three runs on a fresh queue. -/
theorem Task.run_pushes_one_witness :
    ((QueueSystem.init halveWorld).runAll [4, 5, 10]).world.task.taskQueue.length = 0 + 3
      ∧ ((QueueSystem.init halveWorld).runAll [4, 5, 10]).opq.queue.length = 0 + 3 :=
  (Task.run_pushes_one (QueueSystem.init halveWorld) halve [4, 5, 10] rfl).2

/-- C7, as stated, fails: `run` on a task whose job is not set pushes no
future and queues no routine. -/
theorem Task.run_without_job :
    ((QueueSystem.init idleWorld).run 4).world.task.taskQueue.length = 0
      ∧ ((QueueSystem.init idleWorld).run 4).opq.queue.length = 0 := by
  decide

/-- C8: with `hash_code` distinguishing signatures, the first
`task<Signature>()` on a builder makes one task and stores it under the
signature's key; whatever is requested afterwards, a later
`task<Signature>()` returns that same object and adds no entry, the builder
holds exactly one entry for the signature, as many entries as distinct
signatures were requested, and the task objects are pairwise distinct. -/
theorem TaskBuilder.task_singleton {Sig : Type} [DecidableEq Sig] (hash_value : Sig → Nat)
    (hinj : Function.Injective hash_value) (pre post : List Sig) (sig : Sig)
    (hfirst : sig ∉ pre) :
    (TaskBuilder.task hash_value sig (TaskBuilder.empty.requests hash_value pre)).2.tasks
        = (TaskBuilder.empty.requests hash_value pre).tasks
            ++ [(hash_value sig,
                (TaskBuilder.task hash_value sig (TaskBuilder.empty.requests hash_value pre)).1)]
      ∧ TaskBuilder.task hash_value sig
          ((TaskBuilder.empty.requests hash_value (pre ++ [sig])).requests hash_value post)
          = ((TaskBuilder.task hash_value sig (TaskBuilder.empty.requests hash_value pre)).1,
              (TaskBuilder.empty.requests hash_value (pre ++ [sig])).requests hash_value post)
      ∧ (((TaskBuilder.empty.requests hash_value (pre ++ [sig])).requests hash_value
            post).tasks.map Prod.fst).count (hash_value sig) = 1
      ∧ ((TaskBuilder.empty.requests hash_value (pre ++ [sig])).requests hash_value
            post).tasks.length = (pre ++ sig :: post).toFinset.card
      ∧ (((TaskBuilder.empty.requests hash_value (pre ++ [sig])).requests hash_value
            post).tasks.map Prod.snd).Nodup := by
  have hnew : hash_value sig ∉ (TaskBuilder.empty.requests hash_value pre).tasks.map Prod.fst := by
    intro hmem
    have hk := (TaskBuilder.empty_requests_keys hash_value pre).2.2
    have : hash_value sig ∈ (pre.map hash_value).toFinset := by
      rw [← hk]
      exact List.mem_toFinset.mpr hmem
    simp only [List.mem_toFinset, List.mem_map] at this
    obtain ⟨x, hx, hxe⟩ := this
    exact hfirst (hinj hxe ▸ hx)
  have hnone := (TaskBuilder.lookup_none_iff _ _).mpr hnew
  have hself := TaskBuilder.task_lookup_self hash_value sig
    (TaskBuilder.empty.requests hash_value pre)
  have hkept := TaskBuilder.requests_lookup_kept hash_value post _ _ _ hself
  obtain ⟨k1, k2, k3⟩ := TaskBuilder.empty_requests_keys hash_value ((pre ++ [sig]) ++ post)
  rw [TaskBuilder.requests_append] at k1 k2 k3
  rw [TaskBuilder.requests_snoc] at k1 k2 k3 ⊢
  have hmem : hash_value sig ∈ (((TaskBuilder.task hash_value sig
      (TaskBuilder.empty.requests hash_value pre)).2.requests hash_value post).tasks.map
        Prod.fst) := by
    by_contra hcon
    rw [(TaskBuilder.lookup_none_iff _ _).mpr hcon] at hkept
    cases hkept
  refine ⟨?_, ?_, List.count_eq_one_of_mem k1 hmem, ?_, ?_⟩
  · simp [TaskBuilder.task, hnone]
  · exact TaskBuilder.task_found hash_value sig _ _ hkept
  · have hlen := List.toFinset_card_of_nodup k1
    rw [List.length_map] at hlen
    rw [← hlen, k3, TaskBuilder.card_map_injective hash_value hinj]
    congr 1
    ext x
    simp
  · rw [k2]
    exact List.nodup_range _

/-- Witness of `TaskBuilder.task_singleton`: signatures are naturals hashed to
themselves; 5 and 9 are requested, then 3 for the first time, then 5, 3, 9, 3. -/
theorem TaskBuilder.task_singleton_witness :
    (TaskBuilder.task (id : Nat → Nat) 3
        ((TaskBuilder.empty.requests id ([5, 9] ++ [3])).requests id [5, 3, 9, 3])
      = ((TaskBuilder.task (id : Nat → Nat) 3 (TaskBuilder.empty.requests id [5, 9])).1,
          (TaskBuilder.empty.requests id ([5, 9] ++ [3])).requests id [5, 3, 9, 3]))
      ∧ (TaskBuilder.task (id : Nat → Nat) 3 (TaskBuilder.empty.requests id [5, 9])).1 = 2
      ∧ ((TaskBuilder.empty.requests (id : Nat → Nat) ([5, 9] ++ [3])).requests id
          [5, 3, 9, 3]).tasks = [(5, 0), (9, 1), (3, 2)] :=
  ⟨(TaskBuilder.task_singleton (id : Nat → Nat) Function.injective_id [5, 9] [5, 3, 9, 3] 3
      (by decide)).2.1, by decide, by decide⟩

/-- C10: whatever commands are stored, chunks delivered to the data callback
and reads made by the consumer, the cache file never gets shorter and the
byte at every offset below its earlier length stays the same, so reading one
byte at such an offset gives the same result afterwards. -/
theorem AudioPlayer.cachefile_append_only (s : AudioPlayer) (f : CacheFile)
    (events : List BufferEvent) (hfile : s.cachefile = some f) :
    ∃ g, (s.bufferRun events).cachefile = some g
      ∧ f.bytes.length ≤ g.bytes.length
      ∧ ∀ o, o < f.bytes.length →
          g.bytes[o]? = f.bytes[o]?
            ∧ ((g.fseekSet o).fread 1).1 = ((f.fseekSet o).fread 1).1 := by
  obtain ⟨g, hg, t, ht⟩ := AudioPlayer.bufferRun_prefix events s f hfile
  refine ⟨g, hg, ?_, ?_⟩
  · rw [← ht]; simp
  · intro o ho
    constructor
    · rw [← ht, List.getElem?_append_left ho]
    · simp only [CacheFile.fread, CacheFile.fseekSet]
      rw [← ht, List.drop_append_of_le_length (Nat.le_of_lt ho)]
      have hne : 0 < (List.drop o f.bytes).length := by simp; omega
      cases hd : List.drop o f.bytes with
      | nil => rw [hd] at hne; simp at hne
      | cons b bs => simp

/-- Witness of `AudioPlayer.cachefile_append_only`: chunks with a short
write, a read, and a chunk dropped under `Stop`, after three bytes. -/
theorem AudioPlayer.cachefile_append_only_witness :
    (cachedPlayer.bufferRun
        [.chunk [4, 5] 2, .read 0, .command .stop, .chunk [9] 1, .command .proceed,
          .chunk [6, 7] 1]).cachefile = some { bytes := [1, 2, 3, 4, 5, 6], pos := 6 }
      ∧ ∃ g, (cachedPlayer.bufferRun
          [.chunk [4, 5] 2, .read 0, .command .stop, .chunk [9] 1, .command .proceed,
            .chunk [6, 7] 1]).cachefile = some g
        ∧ 3 ≤ g.bytes.length
        ∧ ∀ o, o < 3 →
            g.bytes[o]? = [1, 2, 3][o]?
              ∧ ((g.fseekSet o).fread 1).1
                  = (((⟨[1, 2, 3], 0⟩ : CacheFile).fseekSet o).fread 1).1 :=
  ⟨by decide,
    AudioPlayer.cachefile_append_only cachedPlayer ⟨[1, 2, 3], 0⟩
      [.chunk [4, 5] 2, .read 0, .command .stop, .chunk [9] 1, .command .proceed,
        .chunk [6, 7] 1] rfl⟩

/-- C11, as amended: under `Stop` the data callback appends nothing and
changes nothing in the player; it returns 0 for every chunk that is not empty
and 1 for an empty chunk. -/
theorem AudioPlayer.dataCallback_stop (s : AudioPlayer) (data : List Byte) (written : Nat)
    (hstop : s.requestedCommand = .stop) :
    (s.dataCallback data written).2 = s
      ∧ (data ≠ [] → (s.dataCallback data written).1 = 0)
      ∧ (data = [] → (s.dataCallback data written).1 = 1) := by
  refine ⟨by simp [AudioPlayer.dataCallback, hstop], ?_, ?_⟩
  · intro hne
    simp [AudioPlayer.dataCallback, hstop, hne]
  · intro he
    simp [AudioPlayer.dataCallback, hstop, he]

/-- Witness of `AudioPlayer.dataCallback_stop`: a chunk of two bytes and an
empty chunk under `Stop`. -/
theorem AudioPlayer.dataCallback_stop_witness :
    (stoppedPlayer.dataCallback [4, 5] 2) = (0, stoppedPlayer)
      ∧ (stoppedPlayer.dataCallback [] 0).2 = stoppedPlayer :=
  ⟨Prod.ext ((AudioPlayer.dataCallback_stop stoppedPlayer [4, 5] 2 rfl).2.1 (by decide))
      (AudioPlayer.dataCallback_stop stoppedPlayer [4, 5] 2 rfl).1,
    (AudioPlayer.dataCallback_stop stoppedPlayer [] 0 rfl).1⟩

/-- C11, as stated, fails: under `Stop` the data callback returns 1, not 0,
for a chunk of length 0. -/
theorem AudioPlayer.dataCallback_stop_empty_chunk :
    (stoppedPlayer.dataCallback [] 0).1 = 1 := by
  decide

/-- C12: a pending `Seek(t)` met by the seek block while the format is not
known leaves the read cursor, and every other local of the routine,
unchanged, whatever `t` and whatever else the player holds; the decoder is
not asked, and the command is taken off. -/
theorem AudioPlayer.seek_before_format {X : Type} (ext : External X) (rnd : ℚ → ℚ)
    (s : AudioPlayer) (l : PlayRoutine X) (seconds : ℚ) (hfmt : l.formatInfo.isSet = false) :
    (AudioPlayer.seekHandling ext rnd (s.seek seconds) l).2 = l
      ∧ (AudioPlayer.seekHandling ext rnd (s.seek seconds) l).2.currentOffset = l.currentOffset
      ∧ (AudioPlayer.seekHandling ext rnd (s.seek seconds) l).1.requestedCommand = .proceed := by
  simp [AudioPlayer.seekHandling, AudioPlayer.seek, hfmt]

/-- Witness of `AudioPlayer.seek_before_format`: `seek(5)` on a player that
knows the total size, before any frame was decoded. -/
theorem AudioPlayer.seek_before_format_witness :
    (AudioPlayer.seekHandling toyExternal id
        (({ cachedPlayer with totalSize := 1000 } : AudioPlayer).seek 5)
        (Playback.start cachedPlayer false).routine).2.currentOffset = 0 :=
  (AudioPlayer.seek_before_format toyExternal id { cachedPlayer with totalSize := 1000 }
    (Playback.start cachedPlayer false).routine 5 rfl).2.1

/-- C14: `changeVolume(v)` leaves the whole player unchanged when the
difference to the current volume, as computed, is below 0.001 in absolute
value, and otherwise stores exactly `v` and changes nothing else. -/
theorem AudioPlayer.changeVolume_threshold (rnd : ℚ → ℚ) (v : ℚ) (s : AudioPlayer) :
    (|rnd (v - s.currentVolumeScale)| < rnd (1 / 1000) → s.changeVolume rnd v = s)
      ∧ (rnd (1 / 1000) ≤ |rnd (v - s.currentVolumeScale)| →
          (s.changeVolume rnd v).currentVolumeScale = v
            ∧ s.changeVolume rnd v = { s with currentVolumeScale := v }) := by
  constructor
  · intro h
    unfold AudioPlayer.changeVolume
    rw [if_pos h]
  · intro h
    unfold AudioPlayer.changeVolume
    rw [if_neg (not_lt.mpr h)]
    exact ⟨rfl, rfl⟩

/-- Witness of `AudioPlayer.changeVolume_threshold`: from the initial volume
0.5, a request for 0.5004 is dropped and a request for 0.501 is stored. -/
theorem AudioPlayer.changeVolume_threshold_witness :
    AudioPlayer.new.changeVolume id (5004 / 10000) = AudioPlayer.new
      ∧ (AudioPlayer.new.changeVolume id (501 / 1000)).currentVolumeScale = 501 / 1000 :=
  ⟨(AudioPlayer.changeVolume_threshold id (5004 / 10000) AudioPlayer.new).1 (by decide!),
    ((AudioPlayer.changeVolume_threshold id (501 / 1000) AudioPlayer.new).2 (by decide!)).1⟩

/-- C15: whatever the two jobs do while `stop()` waits for them, `stop()` ends
with the player as its constructor leaves it, volume and delegate apart:
status `Idle`, command `Proceed`, sizes and progress 0, both download flags
false, no buffered progress, seek target -1, reporting enabled, no cache
file.  A further `stop()` with both jobs at rest gives the same state. -/
theorem AudioPlayer.stop_idempotent (playEnds downloadEnds : AudioPlayer → AudioPlayer)
    (s : AudioPlayer) :
    s.stop playEnds downloadEnds =
        { AudioPlayer.new with
          currentVolumeScale :=
            (downloadEnds (playEnds { s with requestedCommand := .stop })).currentVolumeScale
          delegate := (downloadEnds (playEnds { s with requestedCommand := .stop })).delegate }
      ∧ (s.stop playEnds downloadEnds).playerStatus = .idle
      ∧ (s.stop playEnds downloadEnds).requestedCommand = .proceed
      ∧ (s.stop playEnds downloadEnds).totalSize = 0
      ∧ (s.stop playEnds downloadEnds).downloadProgress = 0
      ∧ (s.stop playEnds downloadEnds).downloadingFinished = false
      ∧ (s.stop playEnds downloadEnds).hasMoreData = false
      ∧ (s.stop playEnds downloadEnds).progressQueue = []
      ∧ (s.stop playEnds downloadEnds).requestedSeekSeconds = -1
      ∧ (s.stop playEnds downloadEnds).shouldReportProgress = true
      ∧ (s.stop playEnds downloadEnds).stop id id = s.stop playEnds downloadEnds := by
  refine ⟨rfl, rfl, rfl, rfl, rfl, rfl, rfl, rfl, rfl, rfl, rfl⟩

/-- C16: with nothing buffered `getLastProgressValue` returns 0 and changes
nothing; otherwise it returns the value at the front of the queue, the oldest
one, and removes exactly that value. -/
theorem AudioPlayer.getLastProgressValue_pops (s : AudioPlayer) :
    (s.progressQueue = [] → s.getLastProgressValue = (0, s))
      ∧ (∀ v rest, s.progressQueue = v :: rest →
          s.getLastProgressValue = (v, { s with progressQueue := rest })) := by
  constructor
  · intro h
    simp [AudioPlayer.getLastProgressValue, h]
  · intro v rest h
    simp [AudioPlayer.getLastProgressValue, h]

/-- Witness of `AudioPlayer.getLastProgressValue_pops`: an empty queue, and a
queue holding 1/4 then 1/2. -/
theorem AudioPlayer.getLastProgressValue_pops_witness :
    AudioPlayer.new.getLastProgressValue = (0, AudioPlayer.new)
      ∧ ({ AudioPlayer.new with progressQueue := [1 / 4, 1 / 2] } : AudioPlayer).getLastProgressValue
          = (1 / 4, { AudioPlayer.new with progressQueue := [1 / 2] }) :=
  ⟨(AudioPlayer.getLastProgressValue_pops AudioPlayer.new).1 rfl,
    (AudioPlayer.getLastProgressValue_pops
      { AudioPlayer.new with progressQueue := [1 / 4, 1 / 2] }).2 (1 / 4) [1 / 2] rfl⟩

/-- C18: a step in which the routine leaves its loop comes either from the
wait, with `Stop` requested, or from the end of the inner loop, after a short
read with the download finished; either way the status is `Idle` afterwards
and the delegate, when set, has received exactly one more call,
`playbackFinished`.  A `Stop` met at the wait always leaves the loop, without
reading: the cursor and the cache file stay as they were.  Past `exit:` the
routine does nothing more. -/
theorem Playback.loop_exit {X : Type} (ext : External X) (rnd : ℚ → ℚ) (p : Playback X) :
    (p.routine.point ≠ .exited → (p.consumerStep ext rnd).routine.point = .exited →
        (p.consumerStep ext rnd).player.playerStatus = .idle
          ∧ (p.consumerStep ext rnd).player.delegate
              = p.player.delegate.map (· ++ [.playbackFinished])
          ∧ ((p.routine.point = .waiting ∧ p.player.requestedCommand = .stop)
              ∨ (p.routine.point = .loopEnd ∧ p.routine.read ≠ READBUF_SIZE
                  ∧ p.player.downloadingFinished = true)))
      ∧ (p.routine.point = .waiting → p.player.requestedCommand = .stop →
          (p.consumerStep ext rnd).routine.point = .exited
            ∧ (p.consumerStep ext rnd).routine.currentOffset = p.routine.currentOffset
            ∧ (p.consumerStep ext rnd).routine.read = p.routine.read
            ∧ (p.consumerStep ext rnd).player.cachefile = p.player.cachefile)
      ∧ (p.routine.point = .exited → p.consumerStep ext rnd = p) := by
  refine ⟨?_, ?_, ?_⟩
  · intro hrun hexit
    cases hpt : p.routine.point with
    | seekCheck => simp [Playback.consumerStep, hpt] at hexit
    | waiting =>
      simp only [Playback.consumerStep, hpt] at hexit ⊢
      by_cases hw : p.player.waitPredicate = true
      · simp only [hw, if_true] at hexit ⊢
        by_cases hstop : p.player.requestedCommand = .stop
        · simp only [Playback.wake, hstop, if_true]
          exact ⟨rfl, rfl, Or.inl ⟨trivial, trivial⟩⟩
        · by_cases hpause : p.player.requestedCommand = .pause
          · simp [Playback.wake, hstop, hpause] at hexit
          · exfalso
            cases hf : p.player.cachefile with
            | none =>
              by_cases hpro : p.player.requestedCommand = .proceed <;>
                simp [Playback.wake, hstop, hpause, hpro, AudioPlayer.readChunk, hf] at hexit
            | some f =>
              have := (Playback.wake_read ext p f hf hstop hpause).2.2.2.1
              rw [this] at hexit
              cases hexit
      · simp only [hw] at hexit
        simp [hpt] at hexit
    | decoding =>
      exfalso
      simp only [Playback.consumerStep, hpt, Playback.decode] at hexit
      split at hexit <;> simp at hexit
    | loopEnd =>
      simp only [Playback.consumerStep, hpt, Playback.loopEnd] at hexit ⊢
      by_cases hread : p.routine.read = READBUF_SIZE
      · simp [hread] at hexit
      · simp only [hread, if_false] at hexit ⊢
        by_cases hfin : p.player.downloadingFinished = true
        · simp only [hfin, if_true]
          exact ⟨rfl, rfl, Or.inr ⟨trivial, hread, trivial⟩⟩
        · simp [hfin] at hexit
    | exited => exact absurd hpt hrun
  · intro hpt hstop
    have hw : p.player.waitPredicate = true := by simp [AudioPlayer.waitPredicate, hstop]
    simp only [Playback.consumerStep, hpt, hw, if_true, Playback.wake, hstop]
    exact ⟨rfl, rfl, rfl, rfl⟩
  · intro hpt
    simp [Playback.consumerStep, hpt]

/-- Witness of `Playback.loop_exit`: a routine waiting with a delegate set
meets `Stop`. -/
theorem Playback.loop_exit_witness :
    (({ player := { stoppedPlayer with delegate := some [] }
        routine := { (Playback.start stoppedPlayer false).routine with point := .waiting }
        published := [] } : Playback Bool).consumerStep toyExternal id).player.delegate
      = some [.playbackFinished] :=
  ((Playback.loop_exit toyExternal id
      { player := { stoppedPlayer with delegate := some [] }
        routine := { (Playback.start stoppedPlayer false).routine with point := .waiting }
        published := [] }).1 (by decide) (by decide)).2.1

/-- C20: a read of the playback thread at cursor `c` over a cache file of
length `L` yields the bytes at the offsets from `c` up to, not including,
`min (c + 4096) L`: nothing when `c ≥ L`, never a byte at or beyond `L`; the
cursor moves on by the number of bytes read, and the file keeps its
contents. -/
theorem Playback.read_at_cursor {X : Type} (ext : External X) (rnd : ℚ → ℚ) (p : Playback X)
    (f : CacheFile) (hpoint : p.routine.point = .waiting)
    (hwait : p.player.waitPredicate = true) (hfile : p.player.cachefile = some f)
    (hstop : p.player.requestedCommand ≠ .stop) (hpause : p.player.requestedCommand ≠ .pause) :
    (p.consumerStep ext rnd).routine.readBuffer
        = (f.bytes.drop p.routine.currentOffset).take READBUF_SIZE
      ∧ (p.consumerStep ext rnd).routine.readBuffer.length
          = min (p.routine.currentOffset + 4096) f.bytes.length - p.routine.currentOffset
      ∧ (∀ i, i < (p.consumerStep ext rnd).routine.readBuffer.length →
          (p.consumerStep ext rnd).routine.readBuffer[i]?
              = f.bytes[p.routine.currentOffset + i]?
            ∧ p.routine.currentOffset + i < f.bytes.length)
      ∧ (f.bytes.length ≤ p.routine.currentOffset →
          (p.consumerStep ext rnd).routine.readBuffer = [])
      ∧ (p.consumerStep ext rnd).routine.currentOffset
          = p.routine.currentOffset + (p.consumerStep ext rnd).routine.readBuffer.length
      ∧ (p.consumerStep ext rnd).routine.read
          = (p.consumerStep ext rnd).routine.readBuffer.length
      ∧ ∃ g, (p.consumerStep ext rnd).player.cachefile = some g ∧ g.bytes = f.bytes := by
  have hstep : p.consumerStep ext rnd = p.wake ext := by
    simp [Playback.consumerStep, hpoint, hwait]
  obtain ⟨h1, h2, h3, -, h5⟩ := Playback.wake_read ext p f hfile hstop hpause
  rw [hstep]
  have hlen : (p.wake ext).routine.readBuffer.length
      = min (p.routine.currentOffset + 4096) f.bytes.length - p.routine.currentOffset := by
    rw [h1]
    simp only [List.length_take, List.length_drop, READBUF_SIZE]
    omega
  refine ⟨h1, hlen, ?_, ?_, h2, h3, ⟨_, h5, rfl⟩⟩
  · intro i hi
    have hi' : i < 4096 ∧ p.routine.currentOffset + i < f.bytes.length := by
      rw [hlen] at hi
      omega
    refine ⟨?_, hi'.2⟩
    rw [h1, List.getElem?_take_of_lt (by simpa [READBUF_SIZE] using hi'.1), List.getElem?_drop]
  · intro hle
    rw [h1, List.drop_eq_nil_of_le hle]
    rfl

/-- Witness of `Playback.read_at_cursor`: a read at cursor 1 over the three
bytes of `cachedPlayer` once data is announced. -/
theorem Playback.read_at_cursor_witness :
    (({ player := { cachedPlayer with hasMoreData := true }
        routine := { (Playback.start cachedPlayer false).routine with
          point := .waiting, currentOffset := 1 }
        published := [] } : Playback Bool).consumerStep toyExternal id).routine.readBuffer
      = [2, 3] :=
  (Playback.read_at_cursor toyExternal id
      { player := { cachedPlayer with hasMoreData := true }
        routine := { (Playback.start cachedPlayer false).routine with
          point := .waiting, currentOffset := 1 }
        published := [] } ⟨[1, 2, 3], 0⟩ rfl (by decide) rfl (by decide) (by decide)).1.trans
    (by decide)

/-- C13: when the decoder answers a seek with an input offset above the
downloaded length, the read cursor stays where it was; the cursor changes
only if a seek is pending, the total size and the format are known, the
decoder succeeds and its offset is at most the downloaded length, and then it
becomes that offset.  The downloaded length is the product `totalSize *
downloadProgress` of line 225; after a progress callback for `received` of
`total` bytes it is below `received + 1` under roundings of relative error
`u`, so that an offset above `received` is above it. -/
theorem AudioPlayer.seek_beyond_download {X : Type} (ext : External X) (rnd : ℚ → ℚ)
    (s : AudioPlayer) (l : PlayRoutine X) :
    (∀ o, (ext.feedseek l.ext (AudioPlayer.seekSample rnd s l)).1 = some o →
        AudioPlayer.downloadedLength rnd s < rnd o →
        (AudioPlayer.seekHandling ext rnd s l).2.currentOffset = l.currentOffset)
      ∧ ((AudioPlayer.seekHandling ext rnd s l).2.currentOffset ≠ l.currentOffset →
          s.requestedCommand = .seek ∧ 0 < s.totalSize ∧ l.formatInfo.isSet = true
            ∧ ∃ o, (ext.feedseek l.ext (AudioPlayer.seekSample rnd s l)).1 = some o
                ∧ rnd o ≤ AudioPlayer.downloadedLength rnd s
                ∧ (AudioPlayer.seekHandling ext rnd s l).2.currentOffset = o)
      ∧ (∀ (u : ℚ) (total received o : Nat), 0 < total → s.totalSize = total →
          s.downloadProgress = rnd (rnd received / rnd total) →
          rnd total = total → rnd received = received → rnd o = o → 0 ≤ u →
          rnd ((received : ℚ) / total) ≤ (1 + u) * ((received : ℚ) / total) →
          rnd ((total : ℚ) * rnd ((received : ℚ) / total))
            ≤ (1 + u) * ((total : ℚ) * rnd ((received : ℚ) / total)) →
          (received : ℚ) * (2 * u + u ^ 2) < 1 →
          received < o → AudioPlayer.downloadedLength rnd s < rnd o) := by
  refine ⟨?_, ?_, ?_⟩
  · intro o ho hlt
    unfold AudioPlayer.seekHandling
    split
    · split
      · split
        · simp only [ho]
          rw [if_neg (not_le.mpr hlt)]
        · rfl
      · rfl
    · rfl
  · intro hne
    unfold AudioPlayer.seekHandling at hne ⊢
    by_cases hseek : s.requestedCommand = .seek
    · by_cases htot : 0 < s.totalSize
      · by_cases hfmt : l.formatInfo.isSet = true
        · simp only [hseek, htot, hfmt, if_true] at hne ⊢
          cases hfs : (ext.feedseek l.ext (AudioPlayer.seekSample rnd s l)).1 with
          | none => simp [hfs] at hne
          | some o =>
            simp only [hfs] at hne ⊢
            by_cases hg : rnd o ≤ AudioPlayer.downloadedLength rnd s
            · simp only [hg, if_true]
              exact ⟨trivial, trivial, trivial, o, rfl, hg, rfl⟩
            · simp [hg] at hne
        · simp [hseek, htot, hfmt] at hne
      · simp [hseek, htot] at hne
    · simp [hseek] at hne
  · intro u total received o htotal hsize hprog hexT hexR hexO hu herr1 herr2 hsmall hlt
    have h := AudioPlayer.downloadedLength_lt rnd u total received s htotal hsize hprog hexT
      hexR hu herr1 herr2 hsmall
    rw [hexO]
    have : (received : ℚ) + 1 ≤ o := by exact_mod_cast hlt
    linarith

/-- Witness of `AudioPlayer.seek_beyond_download`: with 500 of 1000 bytes
received, a seek to 10 s asks for input offset 4410 and leaves the cursor at
0, and a seek to 1 s moves it to 441. -/
theorem AudioPlayer.seek_beyond_download_witness :
    (AudioPlayer.seekHandling toyExternal id (halfDownloaded.seek 10) formatKnown).2.currentOffset
        = 0
      ∧ (AudioPlayer.seekHandling toyExternal id (halfDownloaded.seek 1)
          formatKnown).2.currentOffset = 441
      ∧ AudioPlayer.downloadedLength id (halfDownloaded.seek 10) < ((4410 : ℕ) : ℚ) :=
  ⟨(AudioPlayer.seek_beyond_download toyExternal id (halfDownloaded.seek 10) formatKnown).1
      4410 (by decide!) (by decide!),
    by decide!,
    (AudioPlayer.seek_beyond_download toyExternal id (halfDownloaded.seek 10) formatKnown).2.2
      0 1000 500 4410 (by decide) rfl rfl rfl rfl rfl (by decide!) (by decide!) (by decide!)
      (by decide!) (by decide)⟩

/-- C17 fails on the code: when `stop()` follows `playTrack` before the
workers wake up, both `wait()` calls return at once and `stop()` returns with
the download job and the playback job still queued under a live token; the
next pass of each worker runs its job, and the delegate is called after
`stop()` has returned. -/
theorem PlayerSystem.stop_leaves_jobs_queued :
    stoppedAtOnce.playQueue.queue.length = 1
      ∧ stoppedAtOnce.downloadQueue.queue.length = 1
      ∧ stoppedAtOnce.player.delegate = some []
      ∧ (stoppedAtOnce.playQueue.workerRoutine stoppedAtOnce.player).2.1.delegate
          = some [.playbackStarted]
      ∧ (stoppedAtOnce.downloadQueue.workerRoutine stoppedAtOnce.player).2.1.delegate
          = some [.updateCacheProgress]
      ∧ (stoppedAtOnce.playQueue.workerRoutine stoppedAtOnce.player).2.2.map
          (fun d => (d.1.2, d.2)) = [(7, true)] := by
  decide

/-- C19: in a run with the expected total fixed at `total > 0` and no seek,
under a rounding that is monotone and keeps 1, the values the routine
publishes are in non-decreasing order; and a decoding step taken with a
delegate set, once the cursor has reached `total`, publishes exactly 1 as the
last value. -/
theorem Playback.progress_monotone {X : Type} (ext : External X) (rnd : ℚ → ℚ) (total : Nat)
    (p : Playback X) (events : List PlaybackEvent)
    (hmono : Monotone rnd) (hone : rnd 1 = 1) (htotal : 0 < total)
    (hpub : p.published = []) (hcmd : p.player.requestedCommand ≠ .seek)
    (hrep : p.player.shouldReportProgress = true)
    (hsize : p.player.totalSize = 0 ∨ p.player.totalSize = total)
    (hsteady : ∀ e ∈ events, e.steady total = true) :
    List.Sorted (· ≤ ·) (p.run ext rnd events).published
      ∧ ((p.run ext rnd events).routine.point = .decoding →
          (p.run ext rnd events).player.delegate.isSome = true →
          (p.run ext rnd events).player.totalSize = total →
          (p.run ext rnd events).routine.currentOffset = total →
          ((p.run ext rnd events).step ext rnd .consumer).published
            = (p.run ext rnd events).published ++ [1]) := by
  have h0 : p.Steady rnd total := ⟨hcmd, hrep, hsize, by simp [hpub], by simp [hpub]⟩
  obtain ⟨-, hrep', -, hsorted, -⟩ :=
    Playback.run_steady ext rnd hmono hone total htotal events p h0 hsteady
  refine ⟨hsorted, ?_⟩
  intro hpt hdel hts hoff
  have hstep : (p.run ext rnd events).step ext rnd .consumer
      = (p.run ext rnd events).decode ext rnd := by
    simp [Playback.step, Playback.consumerStep, hpt]
  rw [hstep, Playback.decode_published ext rnd _ hrep' (by rw [hts]; exact htotal) hdel, hts,
    hoff, Playback.progressOf_self rnd hmono hone total htotal]

set_option maxRecDepth 100000 in
/-- Witness of `Playback.progress_monotone`: 1000 bytes delivered in four
chunks of 250 with exact arithmetic; the values published are 1/4, 1/2, 3/4,
1 and, on the last turn after the end of the download, 1 again, and the
routine has left its loop. -/
theorem Playback.progress_monotone_witness :
    List.Sorted (· ≤ ·) (freshPlayback.run toyExternal id fourChunks).published
      ∧ (freshPlayback.run toyExternal id fourChunks).published = [1 / 4, 1 / 2, 3 / 4, 1, 1]
      ∧ (freshPlayback.run toyExternal id fourChunks).routine.point = .exited :=
  ⟨(Playback.progress_monotone toyExternal id 1000 freshPlayback fourChunks monotone_id rfl
      (by decide) rfl (by decide) rfl (Or.inl rfl) (by decide)).1,
    by decide!, by decide!⟩

/-- C21: the seek block, met with a `Seek` pending, leaves the command at
`Proceed` and reporting enabled and changes nothing else in the player,
whatever the decoder answers and whether the cursor moved or not; handling
the result again does nothing, so the same request is not handled twice. -/
theorem AudioPlayer.seek_consumed {X : Type} (ext : External X) (rnd : ℚ → ℚ) (s : AudioPlayer)
    (l : PlayRoutine X) (hseek : s.requestedCommand = .seek) :
    (AudioPlayer.seekHandling ext rnd s l).1
        = { s with requestedCommand := .proceed, shouldReportProgress := true }
      ∧ (AudioPlayer.seekHandling ext rnd s l).1.requestedCommand = .proceed
      ∧ (AudioPlayer.seekHandling ext rnd s l).1.shouldReportProgress = true
      ∧ AudioPlayer.seekHandling ext rnd (AudioPlayer.seekHandling ext rnd s l).1
          (AudioPlayer.seekHandling ext rnd s l).2 = AudioPlayer.seekHandling ext rnd s l := by
  have h1 : (AudioPlayer.seekHandling ext rnd s l).1
      = { s with requestedCommand := .proceed, shouldReportProgress := true } := by
    simp [AudioPlayer.seekHandling, hseek]
  refine ⟨h1, by rw [h1], by rw [h1], ?_⟩
  apply Playback.seekHandling_idle
  rw [h1]
  simp

/-- Witness of `AudioPlayer.seek_consumed`: a seek to 1 s that is applied and
a seek to 10 s that is ignored both leave `Proceed` and reporting enabled. -/
theorem AudioPlayer.seek_consumed_witness :
    (AudioPlayer.seekHandling toyExternal id (halfDownloaded.seek 1) formatKnown).1.requestedCommand
        = .proceed
      ∧ (AudioPlayer.seekHandling toyExternal id (halfDownloaded.seek 10)
          formatKnown).1.shouldReportProgress = true :=
  ⟨(AudioPlayer.seek_consumed toyExternal id (halfDownloaded.seek 1) formatKnown rfl).2.1,
    (AudioPlayer.seek_consumed toyExternal id (halfDownloaded.seek 10) formatKnown rfl).2.2.1⟩

/-- C22, as amended: a step that decodes a chunk pushes the value
`cursor / expectedTotal` on the progress queue and calls the delegate's
`updatePlaybackProgress` when reporting is enabled, the expected total is
greater than 0 and a delegate is set; in every other case it pushes
nothing. -/
theorem Playback.decode_publishes {X : Type} (ext : External X) (rnd : ℚ → ℚ) (p : Playback X)
    (hpoint : p.routine.point = .decoding) :
    (p.player.shouldReportProgress = true → 0 < p.player.totalSize →
        p.player.delegate.isSome = true →
        (p.consumerStep ext rnd).player.progressQueue
            = p.player.progressQueue
                ++ [rnd (rnd p.routine.currentOffset / rnd p.player.totalSize)]
          ∧ (p.consumerStep ext rnd).published
            = p.published ++ [rnd (rnd p.routine.currentOffset / rnd p.player.totalSize)]
          ∧ ∃ calls, (p.consumerStep ext rnd).player.delegate
              = some (calls ++ [.updatePlaybackProgress]))
      ∧ (¬ (p.player.shouldReportProgress = true ∧ 0 < p.player.totalSize
            ∧ p.player.delegate.isSome = true) →
          (p.consumerStep ext rnd).player.progressQueue = p.player.progressQueue
            ∧ (p.consumerStep ext rnd).published = p.published) := by
  have hstep : p.consumerStep ext rnd = p.decode ext rnd := by
    simp [Playback.consumerStep, hpoint]
  rw [hstep]
  constructor
  · intro hrep hsize hdel
    obtain ⟨h1, h2⟩ := Playback.decode_pushes ext rnd p hrep hsize hdel
    exact ⟨h1, Playback.decode_published ext rnd p hrep hsize hdel, h2⟩
  · exact Playback.decode_silent ext rnd p

set_option maxRecDepth 100000 in
/-- Witness of `Playback.decode_publishes`: with a delegate set the step that
decodes the first 250 of 1000 bytes pushes 1/4. -/
theorem Playback.decode_publishes_witness :
    (({ decodingWithoutDelegate with
        player := { decodingWithoutDelegate.player with delegate := some [] } }
        : Playback Bool).consumerStep toyExternal id).player.progressQueue = [1 / 4] :=
  ((Playback.decode_publishes toyExternal id
      { decodingWithoutDelegate with
        player := { decodingWithoutDelegate.player with delegate := some [] } } rfl).1
      rfl (by decide) rfl).1.trans (by decide!)

set_option maxRecDepth 100000 in
/-- C22, as stated, fails: with reporting enabled and the expected total
known, but no delegate set, the decoding step pushes nothing. -/
theorem Playback.decode_without_delegate :
    decodingWithoutDelegate.player.shouldReportProgress = true
      ∧ 0 < decodingWithoutDelegate.player.totalSize
      ∧ (decodingWithoutDelegate.consumerStep toyExternal id).player.progressQueue = []
      ∧ (decodingWithoutDelegate.consumerStep toyExternal id).published = [] := by
  decide!

/-- C23: a step that wakes up to `Pause` sets the status to `Paused` and
touches nothing else: the cursor, the bytes read, the decoder and the device,
the cache file, the progress queue and the published values stay as they
were.  With the status `Paused`, the condition of the wait is false whatever
data has arrived and whether or not the download is over, unless the command
is `Proceed` or `Stop`, and the blocked routine does nothing. -/
theorem Playback.pause_consumes_nothing {X : Type} (ext : External X) (rnd : ℚ → ℚ)
    (p : Playback X) (hpoint : p.routine.point = .waiting) :
    (p.player.waitPredicate = true → p.player.requestedCommand = .pause →
        (p.consumerStep ext rnd).player = { p.player with playerStatus := .paused }
          ∧ (p.consumerStep ext rnd).routine = { p.routine with point := .loopEnd }
          ∧ (p.consumerStep ext rnd).routine.currentOffset = p.routine.currentOffset
          ∧ (p.consumerStep ext rnd).routine.ext = p.routine.ext
          ∧ (p.consumerStep ext rnd).published = p.published)
      ∧ (p.player.playerStatus = .paused → p.player.requestedCommand ≠ .proceed →
          p.player.requestedCommand ≠ .stop →
          p.player.waitPredicate = false ∧ p.consumerStep ext rnd = p) := by
  constructor
  · intro hw hpause
    have hstep : p.consumerStep ext rnd
        = { p with
            player := { p.player with playerStatus := .paused }
            routine := { p.routine with point := .loopEnd } } := by
      simp [Playback.consumerStep, hpoint, hw, Playback.wake, hpause]
    rw [hstep]
    exact ⟨rfl, rfl, rfl, rfl, rfl⟩
  · intro hstatus hpro hstop
    have hw : p.player.waitPredicate = false := by
      simp [AudioPlayer.waitPredicate, hstatus, hpro, hstop]
    exact ⟨hw, by simp [Playback.consumerStep, hpoint, hw]⟩

/-- Witness of `Playback.pause_consumes_nothing`: the routine wakes up to
`Pause` with data announced; once paused it stays blocked. -/
theorem Playback.pause_consumes_nothing_witness :
    (pausedAtLoopHead.consumerStep toyExternal id).routine.currentOffset = 0
      ∧ AudioPlayer.waitPredicate
          { pausedAtLoopHead.player with playerStatus := .paused } = false :=
  ⟨((Playback.pause_consumes_nothing toyExternal id pausedAtLoopHead rfl).1
      (by decide) rfl).2.2.1,
    ((Playback.pause_consumes_nothing toyExternal id
      { pausedAtLoopHead with player := { pausedAtLoopHead.player with playerStatus := .paused } }
      rfl).2 rfl (by decide) (by decide)).1⟩

/-- C24 fails on the code: `pause()` or `resume()` called after `seek()`,
before the routine reaches its seek block, replaces the pending `Seek` and
leaves reporting suppressed; the seek block then finds no `Seek` and does not
enable it again. -/
theorem AudioPlayer.reporting_stays_suppressed :
    ((AudioPlayer.new.seek 5).pause).shouldReportProgress = false
      ∧ ((AudioPlayer.new.seek 5).pause).requestedCommand = .pause
      ∧ ((AudioPlayer.new.seek 5).resume).shouldReportProgress = false
      ∧ ((AudioPlayer.new.seek 5).resume).requestedCommand = .proceed
      ∧ (AudioPlayer.seekHandling toyExternal id ((AudioPlayer.new.seek 5).resume)
          formatKnown).1.shouldReportProgress = false := by
  decide

set_option maxRecDepth 100000 in
/-- C25 fails on the code: the routine wakes up to `Pause` at the head of the
outer loop (`read = 0`) with the download finished; it sets `Paused`,
`continue` takes it to the condition of the inner loop, which fails, and the
outer loop breaks: the status becomes `Idle` and the delegate receives
`playbackFinished`. -/
theorem Playback.pause_ends_playback :
    (pausedAtLoopHead.run toyExternal id [.consumer]).player.playerStatus = .paused
      ∧ (pausedAtLoopHead.run toyExternal id [.consumer]).routine.point = .loopEnd
      ∧ (pausedAtLoopHead.run toyExternal id [.consumer, .consumer]).routine.point = .exited
      ∧ (pausedAtLoopHead.run toyExternal id [.consumer, .consumer]).player.playerStatus = .idle
      ∧ (pausedAtLoopHead.run toyExternal id [.consumer, .consumer]).player.delegate
          = some [.playbackFinished]
      ∧ (pausedAtLoopHead.run toyExternal id [.consumer, .consumer]).routine.currentOffset = 0 := by
  decide

/-- C26: `playTrack` throws exactly when `tmpfile()` gives no file.  Then the
status is `Idle` and both queues are as they were, nothing scheduled.
Otherwise the status is `Playing`, `inProgress()` is true, and each queue has
got exactly one more routine, the download job on the download queue and the
playback job on the play queue, under the player's token. -/
theorem PlayerSystem.playTrack_outcome (tmp : Option CacheFile)
    (downloadJob playJob : AudioPlayer → AudioPlayer) (sys : PlayerSystem) :
    ((sys.playTrack tmp downloadJob playJob).2.isSome = true ↔ tmp = none)
      ∧ (tmp = none →
          (sys.playTrack tmp downloadJob playJob).1.player.playerStatus = .idle
            ∧ (sys.playTrack tmp downloadJob playJob).1.player.inProgress = false
            ∧ (sys.playTrack tmp downloadJob playJob).1.downloadQueue = sys.downloadQueue
            ∧ (sys.playTrack tmp downloadJob playJob).1.playQueue = sys.playQueue)
      ∧ (∀ f, tmp = some f →
          (sys.playTrack tmp downloadJob playJob).2 = none
            ∧ (sys.playTrack tmp downloadJob playJob).1.player.playerStatus = .playing
            ∧ (sys.playTrack tmp downloadJob playJob).1.player.inProgress = true
            ∧ (sys.playTrack tmp downloadJob playJob).1.player.cachefile = some f
            ∧ (sys.playTrack tmp downloadJob playJob).1.downloadQueue.queue
                = sys.downloadQueue.queue ++ [(downloadJob, sys.self)]
            ∧ (sys.playTrack tmp downloadJob playJob).1.playQueue.queue
                = sys.playQueue.queue ++ [(playJob, sys.self)]) := by
  cases tmp with
  | none =>
    refine ⟨by simp [PlayerSystem.playTrack], fun _ => ⟨rfl, rfl, rfl, rfl⟩, ?_⟩
    intro f hf
    cases hf
  | some g =>
    refine ⟨by simp [PlayerSystem.playTrack], fun h => Option.noConfusion h, ?_⟩
    intro f hf
    cases hf
    exact ⟨rfl, rfl, rfl, rfl, rfl, rfl⟩

/-- Witness of `PlayerSystem.playTrack_outcome`: a failing and a succeeding
`playTrack` on a fresh player. -/
theorem PlayerSystem.playTrack_outcome_witness :
    ((PlayerSystem.new 7).playTrack none id id).1.player.playerStatus = .idle
      ∧ ((PlayerSystem.new 7).playTrack (some CacheFile.tmpfile) id id).1.player.inProgress
          = true :=
  ⟨((PlayerSystem.playTrack_outcome none id id (PlayerSystem.new 7)).2.1 rfl).1,
    ((PlayerSystem.playTrack_outcome (some CacheFile.tmpfile) id id (PlayerSystem.new 7)).2.2
      CacheFile.tmpfile rfl).2.2.1⟩

/-- C27: under `Stop` the value the data callback returns, and with it the
value `processWithCallback` hands back to the transport, differs from the
length of the chunk, for every chunk, the empty one included. -/
theorem AudioPlayer.dataCallback_stop_differs (s : AudioPlayer) (data : List Byte)
    (written : Nat) (hstop : s.requestedCommand = .stop) :
    (s.dataCallback data written).1 ≠ data.length
      ∧ (processWithCallback (some fun d w => AudioPlayer.dataCallback d written w) data s).1
          ≠ data.length := by
  have h : (s.dataCallback data written).1 ≠ data.length := by
    simp only [AudioPlayer.dataCallback, hstop, if_true]
    split <;> omega
  exact ⟨h, h⟩

/-- Witness of `AudioPlayer.dataCallback_stop_differs`: an empty chunk and a
chunk of two bytes under `Stop`. -/
theorem AudioPlayer.dataCallback_stop_differs_witness :
    (stoppedPlayer.dataCallback [] 0).1 ≠ 0 ∧ (stoppedPlayer.dataCallback [4, 5] 2).1 ≠ 2 :=
  ⟨(AudioPlayer.dataCallback_stop_differs stoppedPlayer [] 0 rfl).1,
    (AudioPlayer.dataCallback_stop_differs stoppedPlayer [4, 5] 2 rfl).1⟩

/-- C28 fails on the code where `char` is signed: the byte 0xE9 is a negative
`char`, `static_cast<unsigned>` makes it 0xFFFFFFE9, and `urlEncode` writes
`%` followed by eight digits, not two; where `char` is unsigned the same
byte gives `%e9`. -/
theorem NetUtils.urlEncode_high_byte :
    NetUtils.urlEncode true [233] = ['%', 'f', 'f', 'f', 'f', 'f', 'f', 'e', '9']
      ∧ (NetUtils.urlEncode true [233]).length = 9
      ∧ NetUtils.urlEncode false [233] = ['%', 'e', '9']
      ∧ NetUtils.urlEncode true [97, 32, 45] = ['a', '%', '2', '0', '-'] := by
  decide

/-- C29: after any sequence of calls from the initial lock in which every
lock call returned and every unlock matched a lock held, there is at most one
writer inside, with a writer inside there is no reader, and no count is
negative. -/
theorem RWLockHandle.mutual_exclusion (calls : List RWCall) (h : RWLockHandle)
    (hrun : RWLockHandle.new.run calls = some h) :
    h.activeWriters ≤ 1 ∧ (h.activeWriters = 1 → h.activeReaders = 0)
      ∧ 0 ≤ h.activeReaders ∧ 0 ≤ h.activeWriters := by
  obtain ⟨hr, hw⟩ := RWLockHandle.run_exclusive calls RWLockHandle.new h hrun
    (by decide) (Or.inl rfl)
  rcases hw with h0 | ⟨h1, h2⟩
  · exact ⟨by omega, fun h1 => by omega, hr, by omega⟩
  · exact ⟨by omega, fun _ => h2, hr, by omega⟩

/-- Witness of `RWLockHandle.mutual_exclusion`: two readers come and go, then
a writer enters. -/
theorem RWLockHandle.mutual_exclusion_witness :
    RWLockHandle.new.run [.readLock, .readLock, .readUnlock, .readUnlock, .writeLock]
        = some { activeReaders := 0, activeWriters := 1 }
      ∧ (1 : Int) ≤ 1 ∧ ((1 : Int) = 1 → (0 : Int) = 0) ∧ (0 : Int) ≤ 0 ∧ (0 : Int) ≤ 1 :=
  ⟨by decide,
    RWLockHandle.mutual_exclusion
      [.readLock, .readLock, .readUnlock, .readUnlock, .writeLock]
      { activeReaders := 0, activeWriters := 1 } (by decide)⟩

/-- C30, as amended: with case labels that are pairwise distinct,
`getErrorCodeForCurlError` returns `OK` exactly for `CURLE_OK` and for
`CURLE_TOO_MANY_REDIRECTS`; every other code maps to an error kind other than
`OK`. -/
theorem HttpError.ok_codes (k : CurlCodes) (curl_code : Nat) (hlabels : k.labels.Nodup) :
    HttpError.getErrorCodeForCurlError k curl_code = .OK
      ↔ curl_code = k.CURLE_OK ∨ curl_code = k.CURLE_TOO_MANY_REDIRECTS := by
  constructor
  · intro h
    by_contra hne
    rw [not_or] at hne
    apply HttpError.chain_ne_ok k curl_code hne.1 hne.2 h
  · intro h
    have hlast := HttpError.labels_last k hlabels
    unfold HttpError.getErrorCodeForCurlError
    rcases h with h | h
    · rw [if_pos h]
    · rw [h]
      simp only [hlast, if_false, if_true]

/-- Witness of `HttpError.ok_codes`: the values of `<curl/curl.h>`, code 0. -/
theorem HttpError.ok_codes_witness :
    HttpError.getErrorCodeForCurlError curlValues 0 = .OK
      ↔ 0 = curlValues.CURLE_OK ∨ 0 = curlValues.CURLE_TOO_MANY_REDIRECTS :=
  HttpError.ok_codes curlValues 0 (by decide)

/-- C30, as stated, fails: `CURLE_TOO_MANY_REDIRECTS` (47) is not `CURLE_OK`
and maps to `OK`. -/
theorem HttpError.too_many_redirects_is_ok :
    HttpError.getErrorCodeForCurlError curlValues curlValues.CURLE_TOO_MANY_REDIRECTS = .OK
      ∧ curlValues.CURLE_TOO_MANY_REDIRECTS ≠ curlValues.CURLE_OK := by
  decide

end gmusic
